import Mathlib

/-!
Shallow embedding of the DNS message codec of crates/mycelnet-dns-protocol
(src/lib.rs).  Byte buffers are `List Nat` (the source's `&[u8]`); machine
integers are `Nat` with an explicit `% 2^w` at every point where the source
performs a narrowing cast (`as u8`) or where unsigned arithmetic could wrap.
A fallible source function returning `anyhow::Result` is modelled with `Res`:
`.ok` and `.err` are the source's `Ok`/`Err`; `.fault` models an
unrecoverable panic (unchecked slice indexing out of bounds, or an
arithmetic underflow in a debug build); `.diverge` models non-termination of
the source's unbounded recursion (the name decoder re-parses the question at
offset 12 to resolve compression pointers, which can recurse forever), made
visible by a fuel parameter.
-/

inductive Res (α : Type) where
  | ok (val : α) : Res α
  | err : Res α
  | fault : Res α
  | diverge : Res α
deriving DecidableEq

instance : Bind Res := ⟨fun r f =>
  match r with
  | .ok a => f a
  | .err => .err
  | .fault => .fault
  | .diverge => .diverge⟩

@[simp] theorem Res.bind_ok {α β : Type} (a : α) (f : α → Res β) : (Res.ok a) >>= f = f a := rfl

@[simp] theorem Res.bind_err {α β : Type} (f : α → Res β) : (Res.err : Res α) >>= f = .err := rfl

@[simp] theorem Res.bind_fault {α β : Type} (f : α → Res β) : (Res.fault : Res α) >>= f = .fault := rfl

@[simp] theorem Res.bind_diverge {α β : Type} (f : α → Res β) : (Res.diverge : Res α) >>= f = .diverge := rfl

/-- `data[i]` in the source: unchecked indexing, a panic (`.fault`) when out
of bounds. -/
def readByte (data : List Nat) (i : Nat) : Res Nat :=
  match data.get? i with
  | some b => .ok b
  | none => .fault

/-- `&data[a..b]` in the source: panics unless `a ≤ b ≤ data.len()`. -/
def readSlice (data : List Nat) (a b : Nat) : Res (List Nat) :=
  if a ≤ b ∧ b ≤ data.length then .ok ((data.drop a).take (b - a)) else .fault

/-- `&data[a..]` in the source: panics unless `a ≤ data.len()`. -/
def readSliceFrom (data : List Nat) (a : Nat) : Res (List Nat) :=
  if a ≤ data.length then .ok (data.drop a) else .fault

/-- The source's recurring expression
`((data[i] as u16) << 8) | data[i+1] as u16`.  Both operands come from `u8`
values (below 256), so the `u16` shift cannot wrap and no reduction
`% 65536` is needed for inputs in the source's domain. -/
def be16 (b0 b1 : Nat) : Nat := (b0 <<< 8) ||| b1

/-- The source's 32-bit analogue used for `ttl`: each byte is below 256, so
the `u32` shifts cannot wrap. -/
def be32 (b0 b1 b2 b3 : Nat) : Nat :=
  (b0 <<< 24) ||| (b1 <<< 16) ||| (b2 <<< 8) ||| b3

inductive DnsOpcode where
  | Query
  | IQuery
  | Status
  | Reserved
  | Notify
  | Update
  | DynamicStatefulOperations
  | Unassigned
deriving DecidableEq

def DnsOpcode.from_u8 (opcode : Nat) : DnsOpcode :=
  match opcode with
  | 0 => .Query
  | 1 => .IQuery
  | 2 => .Status
  | 3 => .Reserved
  | 4 => .Notify
  | 5 => .Update
  | 6 => .DynamicStatefulOperations
  | _ => .Unassigned

def DnsOpcode.to_u8 (o : DnsOpcode) : Nat :=
  match o with
  | .Query => 0
  | .IQuery => 1
  | .Status => 2
  | .Reserved => 3
  | .Notify => 4
  | .Update => 5
  | .DynamicStatefulOperations => 6
  | .Unassigned => 7

inductive DnsRcode where
  | NoError
  | FormatError
  | ServerFailure
  | NameError
  | NotImplemented
  | Refused
  | YXDomain
  | YXRRSet
  | NXRRSet
  | NotAuth
  | NotZone
  | BadOptVersion
  | BadSignature
  | BadKey
  | BadTimestamp
  | BadMode
  | BadName
  | BadAlg
  | BadTruncation
  | Unassigned
  | Reserved
deriving DecidableEq

/-- `DnsRcode::from_u8`: the source masks to the low 4 header bits first, so
the literal arm for 16 is unreachable but kept as written. -/
def DnsRcode.from_u8 (rcode : Nat) : DnsRcode :=
  match rcode &&& 15 with
  | 0 => .NoError
  | 1 => .FormatError
  | 2 => .ServerFailure
  | 3 => .NameError
  | 4 => .NotImplemented
  | 5 => .Refused
  | 6 => .YXDomain
  | 7 => .YXRRSet
  | 8 => .NXRRSet
  | 9 => .NotAuth
  | 10 => .NotZone
  | 16 => .BadOptVersion
  | _ => .Unassigned

/-- `DnsRcode::from_u16`: the source masks to the low 12 bits
(`rcode & 0x0FFF`) and then matches the RFC 6895 ranges; the arms for
4096..=65534 and 65535 are unreachable after the mask but kept as written. -/
def DnsRcode.from_u16 (rcode : Nat) : DnsRcode :=
  if rcode % 4096 = 0 then .NoError
  else if rcode % 4096 = 1 then .FormatError
  else if rcode % 4096 = 2 then .ServerFailure
  else if rcode % 4096 = 3 then .NameError
  else if rcode % 4096 = 4 then .NotImplemented
  else if rcode % 4096 = 5 then .Refused
  else if rcode % 4096 = 6 then .YXDomain
  else if rcode % 4096 = 7 then .YXRRSet
  else if rcode % 4096 = 8 then .NXRRSet
  else if rcode % 4096 = 9 then .NotAuth
  else if rcode % 4096 = 10 then .NotZone
  else if 11 ≤ rcode % 4096 ∧ rcode % 4096 ≤ 15 then .Unassigned
  else if rcode % 4096 = 16 then .BadSignature
  else if rcode % 4096 = 17 then .BadKey
  else if rcode % 4096 = 18 then .BadTimestamp
  else if rcode % 4096 = 19 then .BadMode
  else if rcode % 4096 = 20 then .BadName
  else if rcode % 4096 = 21 then .BadAlg
  else if rcode % 4096 = 22 then .BadTruncation
  else if 23 ≤ rcode % 4096 ∧ rcode % 4096 ≤ 3840 then .Unassigned
  else if 3841 ≤ rcode % 4096 ∧ rcode % 4096 ≤ 4095 then .Reserved
  else if 4096 ≤ rcode % 4096 ∧ rcode % 4096 ≤ 65534 then .Unassigned
  else .Reserved

def DnsRcode.to_u8 (r : DnsRcode) : Nat :=
  match r with
  | .NoError => 0
  | .FormatError => 1
  | .ServerFailure => 2
  | .NameError => 3
  | .NotImplemented => 4
  | .Refused => 5
  | .YXDomain => 6
  | .YXRRSet => 7
  | .NXRRSet => 8
  | .NotAuth => 9
  | .NotZone => 10
  | .BadOptVersion => 16
  | _ => 0

def DnsRcode.to_u16 (r : DnsRcode) : Nat :=
  match r with
  | .NoError => 0
  | .FormatError => 1
  | .ServerFailure => 2
  | .NameError => 3
  | .NotImplemented => 4
  | .Refused => 5
  | .YXDomain => 6
  | .YXRRSet => 7
  | .NXRRSet => 8
  | .NotAuth => 9
  | .NotZone => 10
  | .BadSignature => 16
  | .BadKey => 17
  | .BadTimestamp => 18
  | .BadMode => 19
  | .BadName => 20
  | .BadAlg => 21
  | .BadTruncation => 22
  | _ => 0

inductive DnsQType where
  | A
  | NS
  | MD
  | MF
  | CNAME
  | SOA
  | MB
  | MG
  | MR
  | NULL
  | WKS
  | PTR
  | HINFO
  | MINFO
  | MX
  | TXT
  | RP
  | AFSDB
  | X25
  | ISDN
  | RT
  | NSAP
  | NsapPtr
  | SIG
  | KEY
  | PX
  | GPOS
  | AAAA
  | LOC
  | NXT
  | EID
  | NIMLOC
  | SRV
  | ATMA
  | NAPTR
  | KX
  | CERT
  | A6
  | DNAME
  | SINK
  | OPT
  | APL
  | DS
  | SSHFP
  | IPSECKEY
  | RRSIG
  | NSEC
  | DNSKEY
  | DHCID
  | NSEC3
  | NSEC3PARAM
  | TLSA
  | SMIMEA
  | HIP
  | NINFO
  | RKEY
  | TALINK
  | CDS
  | CDNSKEY
  | OPENPGPKEY
  | CSYNC
  | ZONEMD
  | SVCB
  | HTTPS
  | SPF
  | UINFO
  | UID
  | GID
  | UNSPEC
  | NID
  | L32
  | L64
  | LP
  | EUI48
  | EUI64
  | TKEY
  | TSIG
  | IXFR
  | AXFR
  | MAILB
  | MAILA
  | ALL
  | URI
  | CAA
  | AVC
  | DOA
  | AMTRELAY
  | TA
  | DLV
  | Unassigned
deriving DecidableEq

def DnsQType.from_u16 (qtype : Nat) : DnsQType :=
  match qtype with
  | 1 => .A
  | 2 => .NS
  | 3 => .MD
  | 4 => .MF
  | 5 => .CNAME
  | 6 => .SOA
  | 7 => .MB
  | 8 => .MG
  | 9 => .MR
  | 10 => .NULL
  | 11 => .WKS
  | 12 => .PTR
  | 13 => .HINFO
  | 14 => .MINFO
  | 15 => .MX
  | 16 => .TXT
  | 17 => .RP
  | 18 => .AFSDB
  | 19 => .X25
  | 20 => .ISDN
  | 21 => .RT
  | 22 => .NSAP
  | 23 => .NsapPtr
  | 24 => .SIG
  | 25 => .KEY
  | 26 => .PX
  | 27 => .GPOS
  | 28 => .AAAA
  | 29 => .LOC
  | 30 => .NXT
  | 31 => .EID
  | 32 => .NIMLOC
  | 33 => .SRV
  | 34 => .ATMA
  | 35 => .NAPTR
  | 36 => .KX
  | 37 => .CERT
  | 38 => .A6
  | 39 => .DNAME
  | 40 => .SINK
  | 41 => .OPT
  | 42 => .APL
  | 43 => .DS
  | 44 => .SSHFP
  | 45 => .IPSECKEY
  | 46 => .RRSIG
  | 47 => .NSEC
  | 48 => .DNSKEY
  | 49 => .DHCID
  | 50 => .NSEC3
  | 51 => .NSEC3PARAM
  | 52 => .TLSA
  | 53 => .SMIMEA
  | 55 => .HIP
  | 56 => .NINFO
  | 57 => .RKEY
  | 58 => .TALINK
  | 59 => .CDS
  | 60 => .CDNSKEY
  | 61 => .OPENPGPKEY
  | 62 => .CSYNC
  | 63 => .ZONEMD
  | 64 => .SVCB
  | 65 => .HTTPS
  | 99 => .SPF
  | 100 => .UINFO
  | 101 => .UID
  | 102 => .GID
  | 103 => .UNSPEC
  | 104 => .NID
  | 105 => .L32
  | 106 => .L64
  | 107 => .LP
  | 108 => .EUI48
  | 109 => .EUI64
  | 249 => .TKEY
  | 250 => .TSIG
  | 251 => .IXFR
  | 252 => .AXFR
  | 253 => .MAILB
  | 254 => .MAILA
  | 255 => .ALL
  | 256 => .URI
  | 257 => .CAA
  | 258 => .AVC
  | 259 => .DOA
  | 260 => .AMTRELAY
  | 32768 => .TA
  | 32769 => .DLV
  | _ => .Unassigned

def DnsQType.to_u16 (t : DnsQType) : Nat :=
  match t with
  | .A => 1
  | .NS => 2
  | .MD => 3
  | .MF => 4
  | .CNAME => 5
  | .SOA => 6
  | .MB => 7
  | .MG => 8
  | .MR => 9
  | .NULL => 10
  | .WKS => 11
  | .PTR => 12
  | .HINFO => 13
  | .MINFO => 14
  | .MX => 15
  | .TXT => 16
  | .RP => 17
  | .AFSDB => 18
  | .X25 => 19
  | .ISDN => 20
  | .RT => 21
  | .NSAP => 22
  | .NsapPtr => 23
  | .SIG => 24
  | .KEY => 25
  | .PX => 26
  | .GPOS => 27
  | .AAAA => 28
  | .LOC => 29
  | .NXT => 30
  | .EID => 31
  | .NIMLOC => 32
  | .SRV => 33
  | .ATMA => 34
  | .NAPTR => 35
  | .KX => 36
  | .CERT => 37
  | .A6 => 38
  | .DNAME => 39
  | .SINK => 40
  | .OPT => 41
  | .APL => 42
  | .DS => 43
  | .SSHFP => 44
  | .IPSECKEY => 45
  | .RRSIG => 46
  | .NSEC => 47
  | .DNSKEY => 48
  | .DHCID => 49
  | .NSEC3 => 50
  | .NSEC3PARAM => 51
  | .TLSA => 52
  | .SMIMEA => 53
  | .HIP => 55
  | .NINFO => 56
  | .RKEY => 57
  | .TALINK => 58
  | .CDS => 59
  | .CDNSKEY => 60
  | .OPENPGPKEY => 61
  | .CSYNC => 62
  | .ZONEMD => 63
  | .SVCB => 64
  | .HTTPS => 65
  | .SPF => 99
  | .UINFO => 100
  | .UID => 101
  | .GID => 102
  | .UNSPEC => 103
  | .NID => 104
  | .L32 => 105
  | .L64 => 106
  | .LP => 107
  | .EUI48 => 108
  | .EUI64 => 109
  | .TKEY => 249
  | .TSIG => 250
  | .IXFR => 251
  | .AXFR => 252
  | .MAILB => 253
  | .MAILA => 254
  | .ALL => 255
  | .URI => 256
  | .CAA => 257
  | .AVC => 258
  | .DOA => 259
  | .AMTRELAY => 260
  | .TA => 32768
  | .DLV => 32769
  | .Unassigned => 0

/-- `impl DnsPacketData for DnsQType`, encoding side. -/
def DnsQType.to_bytes (t : DnsQType) : List Nat :=
  [(t.to_u16 >>> 8) % 256, t.to_u16 % 256]

inductive DnsClass where
  | IN
  | CS
  | CH
  | HS
  | NONE
  | ANY
  | Unassigned
  | Reserved
deriving DecidableEq

def DnsClass.from_u16 (rclass : Nat) : DnsClass :=
  match rclass with
  | 1 => .IN
  | 2 => .CS
  | 3 => .CH
  | 4 => .HS
  | 254 => .NONE
  | 255 => .ANY
  | 0 => .Reserved
  | r => if 5 ≤ r ∧ r ≤ 253 then .Unassigned
    else if 65280 ≤ r ∧ r ≤ 65534 then .Reserved
    else if r = 65535 then .Reserved
    else .Unassigned

def DnsClass.to_u16 (c : DnsClass) : Nat :=
  match c with
  | .IN => 1
  | .CS => 2
  | .CH => 3
  | .HS => 4
  | .NONE => 254
  | .ANY => 255
  | .Reserved => 0
  | .Unassigned => 0

/-- `impl DnsPacketData for DnsClass`, encoding side. -/
def DnsClass.to_bytes (c : DnsClass) : List Nat :=
  [(c.to_u16 >>> 8) % 256, c.to_u16 % 256]

structure DnsFlags where
  qr : Nat
  opcode : DnsOpcode
  aa : Nat
  tc : Nat
  rd : Nat
  ra : Nat
  z : Nat
  ad : Nat
  cd : Nat
  rcode : DnsRcode
deriving DecidableEq

/-- `impl Default for DnsFlags`. -/
def DnsFlags.default : DnsFlags :=
  ⟨0, .Query, 0, 0, 1, 0, 0, 0, 0, .NoError⟩

def DnsFlags.from_bytes (data : List Nat) (offset : Nat) : Res DnsFlags :=
  (readByte data offset) >>= fun b0 =>
  (readByte data (offset + 1)) >>= fun b1 =>
  .ok ⟨b0 >>> 7, DnsOpcode.from_u8 ((b0 >>> 3) &&& 15), (b0 >>> 2) &&& 1,
      (b0 >>> 1) &&& 1, b0 &&& 1, b1 >>> 7, (b1 >>> 6) &&& 1, (b1 >>> 5) &&& 1,
      (b1 >>> 4) &&& 1, DnsRcode.from_u8 (b1 &&& 15)⟩

/-- `DnsFlags::to_bytes`: `u8` shifts wrap modulo 256, hence the `% 256` on
each shifted field. -/
def DnsFlags.to_bytes (f : DnsFlags) : List Nat :=
  [((f.qr <<< 7) % 256) ||| ((f.opcode.to_u8 <<< 3) % 256) |||
     ((f.aa <<< 2) % 256) ||| ((f.tc <<< 1) % 256) ||| f.rd,
   ((f.ra <<< 7) % 256) ||| ((f.z <<< 6) % 256) ||| ((f.ad <<< 5) % 256) |||
     ((f.cd <<< 4) % 256) ||| f.rcode.to_u8]

structure DnsHeader where
  id : Nat
  flags : DnsFlags
  qdcount : Nat
  ancount : Nat
  nscount : Nat
  arcount : Nat
deriving DecidableEq

/-- Derived `Default` for `DnsHeader`: zero counts and default flags. -/
def DnsHeader.default : DnsHeader :=
  ⟨0, DnsFlags.default, 0, 0, 0, 0⟩

/-- `DnsHeader::from_bytes`.  Note: the source passes the literal `2` to
`DnsFlags::from_bytes`, not `offset + 2` as every other field does. -/
def DnsHeader.from_bytes (data : List Nat) (offset : Nat) : Res DnsHeader :=
  (readByte data offset) >>= fun i0 =>
  (readByte data (offset + 1)) >>= fun i1 =>
  (DnsFlags.from_bytes data 2) >>= fun flags =>
  (readByte data (offset + 4)) >>= fun q0 =>
  (readByte data (offset + 5)) >>= fun q1 =>
  (readByte data (offset + 6)) >>= fun a0 =>
  (readByte data (offset + 7)) >>= fun a1 =>
  (readByte data (offset + 8)) >>= fun n0 =>
  (readByte data (offset + 9)) >>= fun n1 =>
  (readByte data (offset + 10)) >>= fun r0 =>
  (readByte data (offset + 11)) >>= fun r1 =>
  .ok ⟨be16 i0 i1, flags, be16 q0 q1, be16 a0 a1, be16 n0 n1, be16 r0 r1⟩

def DnsHeader.to_bytes (h : DnsHeader) : List Nat :=
  [(h.id >>> 8) % 256, h.id % 256] ++ h.flags.to_bytes ++
  [(h.qdcount >>> 8) % 256, h.qdcount % 256,
   (h.ancount >>> 8) % 256, h.ancount % 256,
   (h.nscount >>> 8) % 256, h.nscount % 256,
   (h.arcount >>> 8) % 256, h.arcount % 256]

/-- One expected-continuation range of a UTF-8 sequence: lower and upper
byte bound, inclusive. -/
abbrev Utf8Need := List (Nat × Nat)

/-- Byte-level UTF-8 validity, as `String::from_utf8` checks it: a lead byte
fixes how many continuation bytes follow and the admissible range of the
first one (the standard table excluding overlong forms, surrogates, and
code points above U+10FFFF).  The first argument lists the continuation
ranges still expected. -/
def validUtf8From : Utf8Need → List Nat → Bool
  | [], [] => true
  | _ :: _, [] => false
  | (lo, hi) :: need, b :: rest =>
      if lo ≤ b ∧ b ≤ hi then validUtf8From need rest else false
  | [], b :: rest =>
      if b ≤ 127 then validUtf8From [] rest
      else if 194 ≤ b ∧ b ≤ 223 then validUtf8From [(128, 191)] rest
      else if b = 224 then validUtf8From [(160, 191), (128, 191)] rest
      else if 225 ≤ b ∧ b ≤ 236 then validUtf8From [(128, 191), (128, 191)] rest
      else if b = 237 then validUtf8From [(128, 159), (128, 191)] rest
      else if 238 ≤ b ∧ b ≤ 239 then validUtf8From [(128, 191), (128, 191)] rest
      else if b = 240 then validUtf8From [(144, 191), (128, 191), (128, 191)] rest
      else if 241 ≤ b ∧ b ≤ 243 then validUtf8From [(128, 191), (128, 191), (128, 191)] rest
      else if b = 244 then validUtf8From [(128, 143), (128, 191), (128, 191)] rest
      else false

/-- Models the success condition of `String::from_utf8` on a label's bytes
(the source stores labels as `String`, which we model as their UTF-8
bytes). -/
def validUtf8 (l : List Nat) : Bool := validUtf8From [] l

structure DnsName where
  labels : List (List Nat)
  offset : Nat
  pointer : Nat
deriving DecidableEq

/-- Derived `Default` for `DnsName`. -/
def DnsName.default : DnsName := ⟨[], 0, 0⟩

/-- The label-summing loop of `DnsName::length`: one length byte plus the
label bytes per label. -/
def labelsLen : List (List Nat) → Nat
  | [] => 0
  | lab :: rest => lab.length + 1 + labelsLen rest

/-- `DnsName::length`: 2 bytes when the pointer is set, otherwise the label
bytes plus one trailing null byte. -/
def DnsName.length (n : DnsName) : Nat :=
  if n.pointer ≠ 0 then 2 else labelsLen n.labels + 1

/-- The label-emitting loop of `DnsName::to_bytes`: a length byte
(`label.len() as u8`) followed by the label bytes, per label. -/
def encodeLabels : List (List Nat) → List Nat
  | [] => []
  | lab :: rest => (lab.length % 256) :: (lab ++ encodeLabels rest)

def DnsName.to_bytes (n : DnsName) : List Nat :=
  if n.pointer ≠ 0 then
    [192 ||| ((n.pointer >>> 8) % 256), n.pointer % 256]
  else
    encodeLabels n.labels ++ [0]

structure DnsQuestion where
  qname : DnsName
  qtype : DnsQType
  qclass : DnsClass
deriving DecidableEq

/-- Derived `Default` for `DnsQuestion`. -/
def DnsQuestion.default : DnsQuestion := ⟨DnsName.default, .A, .IN⟩

/-- The tail of `DnsQuestion::from_bytes` after the name is decoded: read
`qtype` and `qclass` as consecutive big-endian 16-bit fields. -/
def finishQuestion (data : List Nat) (offset : Nat) (name : DnsName) : Res DnsQuestion :=
  (readByte data (offset + name.length)) >>= fun t0 =>
  (readByte data (offset + name.length + 1)) >>= fun t1 =>
  (readByte data (offset + name.length + 2)) >>= fun c0 =>
  (readByte data (offset + name.length + 3)) >>= fun c1 =>
  .ok ⟨name, DnsQType.from_u16 (be16 t0 t1), DnsClass.from_u16 (be16 c0 c1)⟩

/-- The label-reading loop of `DnsName::from_bytes`.  `qres` is the outcome
of the question re-parse at offset 12 that the source performs inside the
compression-pointer branch (the source never consults it on the literal and
terminator paths, matching this definition).  `acc`/`offAcc` are the
`labels`/`offset` fields of the `DnsName` being built; `fuel` bounds the
loop (the caller passes `data.length + 1`, which the loop, advancing at
least one byte per iteration, can never exhaust before reading past the
buffer). -/
def parseLoop (qres : Res DnsQuestion) (data : List Nat) (offset : Nat) :
    List (List Nat) → Nat → Nat → Nat → Res DnsName
  | _, _, _, 0 => .diverge
  | acc, offAcc, index, fuel + 1 =>
    (readByte data index) >>= fun label_length =>
    if label_length = 0 then
      .ok ⟨acc, offAcc, 0⟩
    else if label_length &&& 192 = 192 then
      (readByte data (index + 1)) >>= fun b2 =>
      qres >>= fun question =>
      if question.qname.offset = ((label_length &&& 63) <<< 8) ||| b2 then
        .ok ⟨question.qname.labels, offAcc, ((label_length &&& 63) <<< 8) ||| b2⟩
      else
        .err
    else
      (readSlice data (index + 1) (index + 1 + label_length)) >>= fun label_bytes =>
      parseLoop qres data offset
        (acc ++ [if validUtf8 label_bytes then label_bytes else []])
        (offset % 65536) (index + 1 + label_length) fuel

/-- `DnsQuestion::from_bytes` specialised to offset 12, stratified by the
pointer-resolution fuel: level `k + 1` resolves pointers met while parsing
the question's own name through level `k`.  In the source this recursion is
unbounded; any chain of nested re-parses at offset 12 beyond depth two
repeats identical calls forever, which surfaces here as `.diverge`. -/
def questionAt12F : Nat → List Nat → Res DnsQuestion
  | 0, _ => .diverge
  | k + 1, data =>
    (parseLoop (questionAt12F k data) data 12 [] 0 12 (data.length + 1)) >>=
      finishQuestion data 12

/-- `DnsName::from_bytes`, with `qFuel` bounding the nested question
re-parses used for pointer resolution. -/
def DnsName.from_bytes (qFuel : Nat) (data : List Nat) (offset : Nat) : Res DnsName :=
  parseLoop (questionAt12F qFuel data) data offset [] 0 offset (data.length + 1)

/-- `DnsQuestion::from_bytes`. -/
def DnsQuestion.from_bytes (qFuel : Nat) (data : List Nat) (offset : Nat) : Res DnsQuestion :=
  (DnsName.from_bytes qFuel data offset) >>= finishQuestion data offset

def DnsQuestion.to_bytes (q : DnsQuestion) : List Nat :=
  q.qname.to_bytes ++ q.qtype.to_bytes ++ q.qclass.to_bytes

structure DnsResourceRecord where
  name : DnsName
  rtype : DnsQType
  rclass : DnsClass
  ttl : Nat
  rdlength : Nat
  rdata : List Nat
deriving DecidableEq

/-- `DnsResourceRecord::from_bytes`.  For `rtype == 41` (OPT) the source
computes `data.len() as u16 - index as u16 - 2` — `u16` arithmetic whose
underflow is a debug-build panic (`.fault`) — and takes every remaining
byte as `rdata`; otherwise it decodes class, ttl and rdlength and slices
exactly `rdlength` bytes. -/
def DnsResourceRecord.from_bytes (qFuel : Nat) (data : List Nat) (offset : Nat) :
    Res DnsResourceRecord :=
  (DnsName.from_bytes qFuel data offset) >>= fun name =>
  (readByte data (offset + name.length)) >>= fun t0 =>
  (readByte data (offset + name.length + 1)) >>= fun t1 =>
  if be16 t0 t1 = 41 then
    (if (offset + name.length) % 65536 + 2 ≤ data.length % 65536 then
      .ok (data.length % 65536 - (offset + name.length) % 65536 - 2)
    else
      (.fault : Res Nat)) >>= fun rdlength =>
    (readSliceFrom data (offset + name.length + 2)) >>= fun rdata =>
    .ok ⟨name, DnsQType.from_u16 (be16 t0 t1), DnsClass.IN, 0, rdlength, rdata⟩
  else
    (readByte data (offset + name.length + 2)) >>= fun c0 =>
    (readByte data (offset + name.length + 3)) >>= fun c1 =>
    (readByte data (offset + name.length + 4)) >>= fun l0 =>
    (readByte data (offset + name.length + 5)) >>= fun l1 =>
    (readByte data (offset + name.length + 6)) >>= fun l2 =>
    (readByte data (offset + name.length + 7)) >>= fun l3 =>
    (readByte data (offset + name.length + 8)) >>= fun d0 =>
    (readByte data (offset + name.length + 9)) >>= fun d1 =>
    (readSlice data (offset + name.length + 10)
        (offset + name.length + 10 + be16 d0 d1)) >>= fun rdata =>
    .ok ⟨name, DnsQType.from_u16 (be16 t0 t1), DnsClass.from_u16 (be16 c0 c1),
        be32 l0 l1 l2 l3, be16 d0 d1, rdata⟩

def DnsResourceRecord.to_bytes (rr : DnsResourceRecord) : List Nat :=
  rr.name.to_bytes ++ rr.rtype.to_bytes ++
  (if rr.rtype = DnsQType.OPT then
    rr.rdata
  else
    rr.rclass.to_bytes ++
    [(rr.ttl >>> 24) % 256, (rr.ttl >>> 16) % 256, (rr.ttl >>> 8) % 256, rr.ttl % 256,
     (rr.rdlength >>> 8) % 256, rr.rdlength % 256] ++ rr.rdata)

/-- The record-parsing loop shared by `DnsRequest::from_bytes` (additional
records) and `DnsResponse::from_bytes` (answer records): each next record
starts `name.length() + 10 + rdlength` bytes after the previous one. -/
def parseRecords (qFuel : Nat) (data : List Nat) :
    Nat → Nat → List DnsResourceRecord → Res (List DnsResourceRecord)
  | _, 0, acc => .ok acc
  | index, n + 1, acc =>
    (DnsResourceRecord.from_bytes qFuel data index) >>= fun record =>
    parseRecords qFuel data (index + record.name.length + 10 + record.rdlength) n
      (acc ++ [record])

/-- The record-emitting loop of the request/response encoders. -/
def recordsToBytes : List DnsResourceRecord → List Nat
  | [] => []
  | rr :: rest => rr.to_bytes ++ recordsToBytes rest

structure DnsRequest where
  header : DnsHeader
  question : DnsQuestion
  additional : Option (List DnsResourceRecord)
deriving DecidableEq

def DnsRequest.from_bytes (qFuel : Nat) (data : List Nat) (offset : Nat) : Res DnsRequest :=
  (DnsHeader.from_bytes data offset) >>= fun header =>
  (DnsQuestion.from_bytes qFuel data (offset + 12)) >>= fun question =>
  if 0 < header.arcount then
    (parseRecords qFuel data (offset + 12 + question.qname.length + 4)
        header.arcount []) >>= fun additional =>
    .ok ⟨header, question, some additional⟩
  else
    .ok ⟨header, question, none⟩

def DnsRequest.to_bytes (r : DnsRequest) : List Nat :=
  r.header.to_bytes ++ r.question.to_bytes ++
  (match r.additional with
   | some records => recordsToBytes records
   | none => [])

structure DnsResponse where
  header : DnsHeader
  question : DnsQuestion
  answers : Option (List DnsResourceRecord)
deriving DecidableEq

/-- `DnsResponse::new`. -/
def DnsResponse.new : DnsResponse :=
  ⟨DnsHeader.default, DnsQuestion.default, none⟩

/-- `DnsResponse::from_request`. -/
def DnsResponse.from_request (request : DnsRequest) : DnsResponse :=
  { DnsResponse.new with
    header := { DnsHeader.default with
      id := request.header.id
      flags := { DnsFlags.default with
        qr := 1
        rd := request.header.flags.rd
        ra := 1 }
      qdcount := request.header.qdcount
      ancount := 1
      nscount := 0
      arcount := 0 }
    question := request.question
    answers := some [⟨request.question.qname, request.question.qtype,
      request.question.qclass, 300, 4, [127, 0, 0, 1]⟩] }

/-- `DnsResponse::from_bytes`: the answer list stays `None` exactly when
`ancount` is zero (the source's loop body allocates it on first push). -/
def DnsResponse.from_bytes (qFuel : Nat) (data : List Nat) (offset : Nat) : Res DnsResponse :=
  (DnsHeader.from_bytes data offset) >>= fun header =>
  (DnsQuestion.from_bytes qFuel data (offset + 12)) >>= fun question =>
  (parseRecords qFuel data (offset + 12 + question.qname.length + 4)
      header.ancount []) >>= fun answers =>
  .ok ⟨header, question, if header.ancount = 0 then none else some answers⟩

def DnsResponse.to_bytes (s : DnsResponse) : List Nat :=
  s.header.to_bytes ++ s.question.to_bytes ++
  (match s.answers with
   | some records => recordsToBytes records
   | none => [])

/-! ## Wire-faithfulness predicates

A message value is wire-faithful when every field carries a value the
decoder could itself have produced from the encoder's bytes: bit fields fit
their widths, enum values are representable (the catch-all variants of
`DnsClass` and the non-header rcodes re-encode to a fixed constant and are
excluded), labels are non-empty, at most 63 bytes and valid UTF-8, counts
match the record lists, every name's recorded `offset` equals the position
at which the encoder lays it out, a pointer-compressed name mirrors the
question, and an OPT record (whose decoder consumes every remaining byte)
is the final record. -/

def labelWF (lab : List Nat) : Prop :=
  1 ≤ lab.length ∧ lab.length ≤ 63 ∧ validUtf8 lab = true

/-- The header rcodes that survive `from_u8 ∘ to_u8` (RFC 1035/2136 codes
0..10; `BadOptVersion` encodes to 16, which the 4-bit header field cannot
carry). -/
def rcodeHeaderWF (r : DnsRcode) : Prop :=
  r = .NoError ∨ r = .FormatError ∨ r = .ServerFailure ∨ r = .NameError ∨
  r = .NotImplemented ∨ r = .Refused ∨ r = .YXDomain ∨ r = .YXRRSet ∨
  r = .NXRRSet ∨ r = .NotAuth ∨ r = .NotZone

def flagsWF (f : DnsFlags) : Prop :=
  f.qr ≤ 1 ∧ f.aa ≤ 1 ∧ f.tc ≤ 1 ∧ f.rd ≤ 1 ∧ f.ra ≤ 1 ∧ f.z ≤ 1 ∧
  f.ad ≤ 1 ∧ f.cd ≤ 1 ∧ rcodeHeaderWF f.rcode

def headerWF (h : DnsHeader) : Prop :=
  h.id < 65536 ∧ flagsWF h.flags ∧ h.qdcount < 65536 ∧ h.ancount < 65536 ∧
  h.nscount < 65536 ∧ h.arcount < 65536

/-- The question's name is in label form; its recorded offset is 12 (where
a message decoded at offset 0 places it) when any label was recorded, else
the untouched default 0. -/
def questionWF (q : DnsQuestion) : Prop :=
  q.qname.pointer = 0 ∧ (∀ lab ∈ q.qname.labels, labelWF lab) ∧
  q.qname.offset = (if q.qname.labels = [] then 0 else 12) ∧
  q.qclass ≠ DnsClass.Unassigned

/-- A record name at buffer position `pos`: either label form with the
offset the decoder records there, or a pointer mirroring the question. -/
def recordNameWF (q : DnsQuestion) (pos : Nat) (n : DnsName) : Prop :=
  (n.pointer = 0 ∧ (∀ lab ∈ n.labels, labelWF lab) ∧
    n.offset = (if n.labels = [] then 0 else pos)) ∨
  (n.pointer ≠ 0 ∧ n.pointer = q.qname.offset ∧ n.labels = q.qname.labels ∧
    n.offset = 0)

def recordWF (q : DnsQuestion) (pos : Nat) (last : Prop) (rr : DnsResourceRecord) : Prop :=
  recordNameWF q pos rr.name ∧ rr.rdlength = rr.rdata.length ∧
  rr.ttl < 4294967296 ∧
  (rr.rtype = DnsQType.OPT → rr.rclass = DnsClass.IN ∧ rr.ttl = 0 ∧ last) ∧
  (rr.rtype ≠ DnsQType.OPT → rr.rclass ≠ DnsClass.Unassigned)

def recordsWF (q : DnsQuestion) : Nat → List DnsResourceRecord → Prop
  | _, [] => True
  | pos, rr :: rest =>
    recordWF q pos (rest = []) rr ∧
    recordsWF q (pos + rr.name.length + 10 + rr.rdlength) rest

/-- The count/content agreement for an optional record section: the count
names exactly the records present, and the records are wire-faithful at
their laid-out positions after the question. -/
def sectionWF (q : DnsQuestion) (count : Nat) :
    Option (List DnsResourceRecord) → Prop
  | none => count = 0
  | some records =>
      count = records.length ∧ records ≠ [] ∧
      recordsWF q (12 + q.qname.length + 4) records

def requestWF (r : DnsRequest) : Prop :=
  headerWF r.header ∧ questionWF r.question ∧ r.to_bytes.length < 65536 ∧
  sectionWF r.question r.header.arcount r.additional

def responseWF (s : DnsResponse) : Prop :=
  headerWF s.header ∧ questionWF s.question ∧ s.to_bytes.length < 65536 ∧
  sectionWF s.question s.header.ancount s.answers

/-! ## Arithmetic helpers -/

theorem lor_shift_add {b : Nat} (a k : Nat) (h : b < 2 ^ k) :
    (a <<< k) ||| b = a <<< k + b := by
  rw [Nat.shiftLeft_eq, Nat.mul_comm]
  exact (Nat.mul_add_lt_is_or h a).symm

theorem be16_split {n : Nat} (h : n < 65536) :
    be16 ((n >>> 8) % 256) (n % 256) = n := by
  have e : (2 : Nat) ^ 8 = 256 := by norm_num
  have h8 : (n >>> 8) % 256 = n / 256 := by
    rw [Nat.shiftRight_eq_div_pow, e]
    omega
  unfold be16
  rw [h8, lor_shift_add (n / 256) 8 (by omega), Nat.shiftLeft_eq, e]
  omega

theorem be32_split {n : Nat} (h : n < 4294967296) :
    be32 ((n >>> 24) % 256) ((n >>> 16) % 256) ((n >>> 8) % 256) (n % 256) = n := by
  have e8 : (2 : Nat) ^ 8 = 256 := by norm_num
  have e16 : (2 : Nat) ^ 16 = 65536 := by norm_num
  have e24 : (2 : Nat) ^ 24 = 16777216 := by norm_num
  have h24 : (n >>> 24) % 256 = n / 16777216 := by
    rw [Nat.shiftRight_eq_div_pow, e24]
    omega
  have h16 : (n >>> 16) % 256 = n / 65536 % 256 := by
    rw [Nat.shiftRight_eq_div_pow, e16]
  have h8 : (n >>> 8) % 256 = n / 256 % 256 := by
    rw [Nat.shiftRight_eq_div_pow, e8]
  unfold be32
  rw [h24, h16, h8, Nat.lor_assoc, Nat.lor_assoc]
  rw [lor_shift_add (n / 256 % 256) 8 (by rw [e8]; omega)]
  rw [Nat.shiftLeft_eq (n / 256 % 256), e8]
  rw [lor_shift_add (n / 65536 % 256) 16 (by rw [e16]; omega)]
  rw [Nat.shiftLeft_eq (n / 65536 % 256), e16]
  rw [lor_shift_add (n / 16777216) 24 (by rw [e24]; omega)]
  rw [Nat.shiftLeft_eq, e24]
  omega

/-! ## Enumeration lemmas -/

theorem DnsOpcode.from_u8_to_u8 (o : DnsOpcode) : DnsOpcode.from_u8 o.to_u8 = o := by
  cases o <;> rfl

theorem DnsOpcode.to_u8_le (o : DnsOpcode) : o.to_u8 ≤ 7 := by
  cases o <;> decide

theorem DnsQType.from_u16_to_u16 (t : DnsQType) : DnsQType.from_u16 t.to_u16 = t := by
  cases t <;> rfl

theorem DnsQType.to_u16_lt_q (t : DnsQType) : t.to_u16 < 65536 := by
  cases t <;> decide

theorem DnsQType.to_u16_eq_41_iff (t : DnsQType) : t.to_u16 = 41 ↔ t = DnsQType.OPT := by
  cases t <;> decide

theorem DnsClass.from_u16_to_u16c (c : DnsClass) (h : c ≠ DnsClass.Unassigned) :
    DnsClass.from_u16 c.to_u16 = c := by
  cases c <;> first | rfl | exact absurd rfl h

theorem DnsClass.to_u16_lt_c (c : DnsClass) : c.to_u16 < 65536 := by
  cases c <;> decide

theorem DnsRcode.from8_to8 (r : DnsRcode) (h : rcodeHeaderWF r) :
    DnsRcode.from_u8 r.to_u8 = r := by
  rcases h with rfl | rfl | rfl | rfl | rfl | rfl | rfl | rfl | rfl | rfl | rfl <;> rfl

theorem DnsRcode.to_u8_le_10 (r : DnsRcode) (h : rcodeHeaderWF r) : r.to_u8 ≤ 10 := by
  rcases h with rfl | rfl | rfl | rfl | rfl | rfl | rfl | rfl | rfl | rfl | rfl <;> decide

/-! ## Small bit facts, settled over the bounded byte range -/

set_option maxRecDepth 4096 in
theorem and192_of_lt_64 : ∀ x : Nat, x < 64 → x &&& 192 = 0 := by decide

set_option maxRecDepth 4096 in
theorem ptr_byte_facts : ∀ x : Nat, x < 64 →
    (192 ||| x) &&& 192 = 192 ∧ (192 ||| x) &&& 63 = x ∧ 192 ||| x ≠ 0 := by decide

set_option maxRecDepth 16384 in
theorem and192_iff_ge : ∀ b : Nat, b < 256 → (b &&& 192 = 192 ↔ 192 ≤ b) := by decide

/-! ## List access from drop equations -/

theorem get?_add_of_drop {α : Type} {data rest : List α} {i : Nat}
    (h : data.drop i = rest) (j : Nat) : data.get? (i + j) = rest.get? j := by
  induction i generalizing data with
  | zero =>
    simp only [List.drop_zero] at h
    simp [h]
  | succ i ih =>
    cases data with
    | nil =>
      simp only [List.drop_nil] at h
      simp [← h]
    | cons a l =>
      simp only [List.drop_succ_cons] at h
      have := ih h
      simpa [Nat.succ_add] using this

theorem get?_of_drop {α : Type} {data rest : List α} {i : Nat} {b : α}
    (h : data.drop i = b :: rest) : data.get? i = some b := by
  have := get?_add_of_drop h 0
  simpa using this

theorem drop_add_of_drop {α : Type} {data rest : List α} {i : Nat}
    (h : data.drop i = rest) (j : Nat) : data.drop (i + j) = rest.drop j := by
  induction i generalizing data with
  | zero =>
    simp only [List.drop_zero] at h
    simp [h]
  | succ i ih =>
    cases data with
    | nil =>
      simp only [List.drop_nil] at h
      simp [← h]
    | cons a l =>
      simp only [List.drop_succ_cons] at h
      have := ih h
      simpa [Nat.succ_add] using this

theorem drop_succ_of_drop {α : Type} {data rest : List α} {i : Nat} {b : α}
    (h : data.drop i = b :: rest) : data.drop (i + 1) = rest := by
  simpa using drop_add_of_drop h 1

theorem length_ge_of_drop {α : Type} {data : List α} {i : Nat} {b : α} {rest : List α}
    (h : data.drop i = b :: rest) : i + 1 + rest.length ≤ data.length := by
  have := congrArg List.length h
  simp only [List.length_drop, List.length_cons] at this
  have hi : i < data.length := by
    by_contra hc
    push_neg at hc
    rw [List.drop_eq_nil_of_le hc] at h
    exact List.noConfusion h
  omega

theorem readByte_of_drop {data rest : List Nat} {i b : Nat}
    (h : data.drop i = b :: rest) : readByte data i = .ok b := by
  unfold readByte
  rw [get?_of_drop h]

theorem readByte_add_of_drop {data rest : List Nat} {i : Nat} (j : Nat) {b : Nat}
    (h : data.drop i = rest) (hj : rest.get? j = some b) : readByte data (i + j) = .ok b := by
  unfold readByte
  rw [get?_add_of_drop h j, hj]

theorem readSlice_of_drop {data lab rest : List Nat} {a : Nat}
    (ha : a ≤ data.length) (h : data.drop a = lab ++ rest) :
    readSlice data a (a + lab.length) = .ok lab := by
  have hlen : (data.drop a).length = data.length - a := List.length_drop a data
  rw [h] at hlen
  simp only [List.length_append] at hlen
  unfold readSlice
  rw [if_pos (by omega)]
  rw [h, Nat.add_sub_cancel_left, List.take_left]

theorem readSliceFrom_of_drop {data rest : List Nat} {a : Nat}
    (ha : a ≤ data.length) (h : data.drop a = rest) :
    readSliceFrom data a = .ok rest := by
  unfold readSliceFrom
  rw [if_pos ha, h]

/-! ## Name codec lemmas -/

theorem encodeLabels_length (l : List (List Nat)) :
    (encodeLabels l).length = labelsLen l := by
  induction l with
  | nil => rfl
  | cons lab rest ih =>
    simp only [encodeLabels, labelsLen, List.length_cons, List.length_append, ih]
    omega

theorem length_le_encodeLabels (l : List (List Nat)) :
    l.length ≤ (encodeLabels l).length := by
  induction l with
  | nil => simp
  | cons lab rest ih =>
    simp only [encodeLabels, List.length_cons, List.length_append]
    omega

theorem name_length_plain {n : DnsName} (h : n.pointer = 0) :
    n.length = labelsLen n.labels + 1 := by
  unfold DnsName.length
  simp [h]

theorem name_to_bytes_plain {n : DnsName} (h : n.pointer = 0) :
    n.to_bytes = encodeLabels n.labels ++ [0] := by
  unfold DnsName.to_bytes
  simp [h]

theorem name_to_bytes_length (n : DnsName) : n.to_bytes.length = n.length := by
  unfold DnsName.to_bytes DnsName.length
  by_cases h : n.pointer = 0
  · simp [h, encodeLabels_length]
  · simp [h]

theorem parseLoop_term {qres : Res DnsQuestion} {data : List Nat}
    {offset : Nat} {acc : List (List Nat)} {offAcc index fuel : Nat} {rest : List Nat}
    (h : data.drop index = 0 :: rest) :
    parseLoop qres data offset acc offAcc index (fuel + 1) = .ok ⟨acc, offAcc, 0⟩ := by
  unfold parseLoop
  rw [readByte_of_drop h]
  simp

theorem parseLoop_label {qres : Res DnsQuestion} {data : List Nat}
    {offset : Nat} {acc : List (List Nat)} {offAcc index fuel b : Nat} {lab rest : List Nat}
    (h : data.drop index = b :: (lab ++ rest)) (hb : b ≠ 0) (hb2 : b &&& 192 ≠ 192)
    (hlen : lab.length = b) :
    parseLoop qres data offset acc offAcc index (fuel + 1) =
      parseLoop qres data offset (acc ++ [if validUtf8 lab then lab else []])
        (offset % 65536) (index + 1 + b) fuel := by
  unfold parseLoop
  rw [readByte_of_drop h]
  simp only [Res.bind_ok]
  rw [if_neg hb, if_neg hb2]
  have h1 : data.drop (index + 1) = lab ++ rest := drop_succ_of_drop h
  have ha : index + 1 ≤ data.length := by
    have := length_ge_of_drop h
    omega
  have hs := readSlice_of_drop ha h1
  rw [hlen] at hs
  rw [hs]
  simp only [Res.bind_ok]
  rw [← parseLoop.eq_def]

theorem parseLoop_ptr {qres : Res DnsQuestion} {data : List Nat}
    {offset : Nat} {acc : List (List Nat)} {offAcc index fuel b b2 : Nat} {rest : List Nat}
    (h : data.drop index = b :: b2 :: rest) (hb : b &&& 192 = 192) :
    parseLoop qres data offset acc offAcc index (fuel + 1) =
      (qres >>= fun question =>
        if question.qname.offset = ((b &&& 63) <<< 8) ||| b2 then
          .ok ⟨question.qname.labels, offAcc, ((b &&& 63) <<< 8) ||| b2⟩
        else
          .err) := by
  unfold parseLoop
  rw [readByte_of_drop h]
  simp only [Res.bind_ok]
  have hb0 : b ≠ 0 := by
    intro e
    subst e
    simp at hb
  rw [if_neg hb0, if_pos hb, readByte_of_drop (drop_succ_of_drop h)]
  simp

theorem parseLoop_labels {qres : Res DnsQuestion} {data : List Nat} {offset : Nat} :
    ∀ (labels acc : List (List Nat)) (offAcc index fuel : Nat) (rest : List Nat),
    (∀ lab ∈ labels, labelWF lab) →
    data.drop index = encodeLabels labels ++ 0 :: rest →
    labels.length < fuel →
    parseLoop qres data offset acc offAcc index fuel =
      .ok ⟨acc ++ labels, if labels = [] then offAcc else offset % 65536, 0⟩ := by
  intro labels
  induction labels with
  | nil =>
    intro acc offAcc index fuel rest _ h hfuel
    match fuel, hfuel with
    | fuel + 1, _ =>
      simp only [encodeLabels, List.nil_append] at h
      rw [parseLoop_term h]
      simp
  | cons lab ls ih =>
    intro acc offAcc index fuel rest hWF h hfuel
    match fuel, hfuel with
    | fuel + 1, hfuel =>
      obtain ⟨hlen1, hlen63, hutf⟩ := hWF lab (List.mem_cons_self lab ls)
      have hWFls : ∀ l ∈ ls, labelWF l := fun l hl => hWF l (List.mem_cons_of_mem lab hl)
      have hmod : lab.length % 256 = lab.length := Nat.mod_eq_of_lt (by omega)
      have h' : data.drop index = lab.length :: (lab ++ (encodeLabels ls ++ 0 :: rest)) := by
        simpa [encodeLabels, hmod, List.append_assoc] using h
      have hb : lab.length ≠ 0 := by omega
      have hb2 : lab.length &&& 192 ≠ 192 := by
        rw [and192_of_lt_64 lab.length (by omega)]
        omega
      rw [parseLoop_label h' hb hb2 rfl, hutf]
      simp only [if_pos]
      have hnext : data.drop (index + 1 + lab.length) = encodeLabels ls ++ 0 :: rest := by
        have h1 : data.drop (index + 1) = lab ++ (encodeLabels ls ++ 0 :: rest) :=
          drop_succ_of_drop h'
        have h2 := drop_add_of_drop h1 lab.length
        rwa [List.drop_left] at h2
      have := ih (acc ++ [if validUtf8 lab = true then lab else []]) (offset % 65536)
        (index + 1 + lab.length) fuel rest hWFls hnext (by simp at hfuel; omega)
      rw [hutf] at this
      simp only [if_pos] at this
      rw [this]
      by_cases hls : ls = [] <;> simp [hls]

theorem name_from_bytes_labels {qF : Nat} {data : List Nat} {offset : Nat}
    {labels : List (List Nat)} {rest : List Nat}
    (hWF : ∀ lab ∈ labels, labelWF lab)
    (h : data.drop offset = encodeLabels labels ++ 0 :: rest) :
    DnsName.from_bytes qF data offset =
      .ok ⟨labels, if labels = [] then 0 else offset % 65536, 0⟩ := by
  unfold DnsName.from_bytes
  have hlen : labels.length < data.length + 1 := by
    have h1 := congrArg List.length h
    simp only [List.length_drop, List.length_append, List.length_cons] at h1
    have h2 := length_le_encodeLabels labels
    omega
  have := @parseLoop_labels (questionAt12F qF data) data offset
    labels [] 0 offset (data.length + 1) rest hWF h hlen
  simpa using this

/-- Resolving a compression pointer: the bytes the encoder emits for a
pointer `p` (with `p < 2^14`) decode back to `p`, and the loop returns the
question's labels when `p` matches the question's recorded offset. -/
theorem name_from_bytes_ptr {qF : Nat} {data : List Nat} {offset p : Nat}
    {rest : List Nat} {q : DnsQuestion}
    (hp : p < 16384)
    (h : data.drop offset = (192 ||| ((p >>> 8) % 256)) :: p % 256 :: rest)
    (hq : questionAt12F qF data = .ok q) (hmatch : q.qname.offset = p) :
    DnsName.from_bytes qF data offset = .ok ⟨q.qname.labels, 0, p⟩ := by
  have hx : (p >>> 8) % 256 < 64 := by
    rw [Nat.shiftRight_eq_div_pow]
    norm_num
    omega
  obtain ⟨h192, h63, _⟩ := ptr_byte_facts ((p >>> 8) % 256) hx
  have hdec : (((192 ||| ((p >>> 8) % 256)) &&& 63) <<< 8) ||| p % 256 = p := by
    rw [h63]
    have h8 : (p >>> 8) % 256 = p / 256 := by
      rw [Nat.shiftRight_eq_div_pow]
      have e : (2 : Nat) ^ 8 = 256 := by norm_num
      rw [e]
      omega
    rw [h8, lor_shift_add (p / 256) 8 (by omega), Nat.shiftLeft_eq]
    have e : (2 : Nat) ^ 8 = 256 := by norm_num
    rw [e]
    omega
  unfold DnsName.from_bytes
  have hfuel : data.length + 1 = data.length + 1 := rfl
  rw [parseLoop_ptr h h192, hq]
  simp only [Res.bind_ok, hdec]
  rw [if_pos hmatch]

/-- Mismatched pointer target: the source raises its anyhow error. -/
theorem name_from_bytes_ptr_mismatch {qF : Nat} {data : List Nat} {offset b b2 : Nat}
    {rest : List Nat} {q : DnsQuestion}
    (h : data.drop offset = b :: b2 :: rest) (hb : b &&& 192 = 192)
    (hq : questionAt12F qF data = .ok q)
    (hmis : q.qname.offset ≠ ((b &&& 63) <<< 8) ||| b2) :
    DnsName.from_bytes qF data offset = .err := by
  unfold DnsName.from_bytes
  rw [parseLoop_ptr h hb, hq]
  simp only [Res.bind_ok]
  rw [if_neg hmis]

/-! ## Flags byte decomposition and extraction -/

theorem lor_mul_add {b : Nat} (a k : Nat) (h : b < 2 ^ k) :
    (2 ^ k * a) ||| b = 2 ^ k * a + b :=
  (Nat.mul_add_lt_is_or h a).symm

theorem and_1_eq (x : Nat) : x &&& 1 = x % 2 := Nat.and_one_is_mod x

theorem and_15_eq (x : Nat) : x &&& 15 = x % 16 := by
  have := Nat.and_pow_two_sub_one_eq_mod x 4
  norm_num at this
  exact this

theorem and_63_eq (x : Nat) : x &&& 63 = x % 64 := by
  have := Nat.and_pow_two_sub_one_eq_mod x 6
  norm_num at this
  exact this

theorem byte0_decomp {qr op aa tc rd : Nat} (h1 : qr ≤ 1) (h2 : op ≤ 15)
    (h3 : aa ≤ 1) (h4 : tc ≤ 1) (h5 : rd ≤ 1) :
    ((qr <<< 7) % 256) ||| ((op <<< 3) % 256) ||| ((aa <<< 2) % 256) |||
      ((tc <<< 1) % 256) ||| rd = qr * 128 + op * 8 + aa * 4 + tc * 2 + rd := by
  have e7 : (qr <<< 7) % 256 = 2 ^ 7 * qr := by
    rw [Nat.shiftLeft_eq]
    norm_num
    omega
  have e3 : (op <<< 3) % 256 = 2 ^ 3 * op := by
    rw [Nat.shiftLeft_eq]
    norm_num
    omega
  have e2 : (aa <<< 2) % 256 = 2 ^ 2 * aa := by
    rw [Nat.shiftLeft_eq]
    norm_num
    omega
  have e1 : (tc <<< 1) % 256 = 2 ^ 1 * tc := by
    rw [Nat.shiftLeft_eq]
    norm_num
    omega
  rw [e7, e3, e2, e1, Nat.lor_assoc, Nat.lor_assoc, Nat.lor_assoc]
  rw [lor_mul_add tc 1 (by omega)]
  rw [lor_mul_add aa 2 (by norm_num; omega)]
  rw [lor_mul_add op 3 (by norm_num; omega)]
  rw [lor_mul_add qr 7 (by norm_num; omega)]
  norm_num
  omega

theorem byte1_decomp {ra z ad cd rc : Nat} (h1 : ra ≤ 1) (h2 : z ≤ 1)
    (h3 : ad ≤ 1) (h4 : cd ≤ 1) (h5 : rc ≤ 15) :
    ((ra <<< 7) % 256) ||| ((z <<< 6) % 256) ||| ((ad <<< 5) % 256) |||
      ((cd <<< 4) % 256) ||| rc = ra * 128 + z * 64 + ad * 32 + cd * 16 + rc := by
  have e7 : (ra <<< 7) % 256 = 2 ^ 7 * ra := by
    rw [Nat.shiftLeft_eq]
    norm_num
    omega
  have e6 : (z <<< 6) % 256 = 2 ^ 6 * z := by
    rw [Nat.shiftLeft_eq]
    norm_num
    omega
  have e5 : (ad <<< 5) % 256 = 2 ^ 5 * ad := by
    rw [Nat.shiftLeft_eq]
    norm_num
    omega
  have e4 : (cd <<< 4) % 256 = 2 ^ 4 * cd := by
    rw [Nat.shiftLeft_eq]
    norm_num
    omega
  rw [e7, e6, e5, e4, Nat.lor_assoc, Nat.lor_assoc, Nat.lor_assoc]
  rw [lor_mul_add cd 4 (by norm_num; omega)]
  rw [lor_mul_add ad 5 (by norm_num; omega)]
  rw [lor_mul_add z 6 (by norm_num; omega)]
  rw [lor_mul_add ra 7 (by norm_num; omega)]
  norm_num
  omega

theorem byte0_extract {qr op aa tc rd : Nat} (h1 : qr ≤ 1) (h2 : op ≤ 15)
    (h3 : aa ≤ 1) (h4 : tc ≤ 1) (h5 : rd ≤ 1) :
    (qr * 128 + op * 8 + aa * 4 + tc * 2 + rd) >>> 7 = qr ∧
    ((qr * 128 + op * 8 + aa * 4 + tc * 2 + rd) >>> 3) &&& 15 = op ∧
    ((qr * 128 + op * 8 + aa * 4 + tc * 2 + rd) >>> 2) &&& 1 = aa ∧
    ((qr * 128 + op * 8 + aa * 4 + tc * 2 + rd) >>> 1) &&& 1 = tc ∧
    (qr * 128 + op * 8 + aa * 4 + tc * 2 + rd) &&& 1 = rd := by
  simp only [Nat.shiftRight_eq_div_pow, and_15_eq, and_1_eq]
  norm_num
  omega

theorem byte1_extract {ra z ad cd rc : Nat} (h1 : ra ≤ 1) (h2 : z ≤ 1)
    (h3 : ad ≤ 1) (h4 : cd ≤ 1) (h5 : rc ≤ 15) :
    (ra * 128 + z * 64 + ad * 32 + cd * 16 + rc) >>> 7 = ra ∧
    ((ra * 128 + z * 64 + ad * 32 + cd * 16 + rc) >>> 6) &&& 1 = z ∧
    ((ra * 128 + z * 64 + ad * 32 + cd * 16 + rc) >>> 5) &&& 1 = ad ∧
    ((ra * 128 + z * 64 + ad * 32 + cd * 16 + rc) >>> 4) &&& 1 = cd ∧
    (ra * 128 + z * 64 + ad * 32 + cd * 16 + rc) &&& 15 = rc := by
  simp only [Nat.shiftRight_eq_div_pow, and_15_eq, and_1_eq]
  norm_num
  omega

/-- Decoding two explicit flag bytes (pure reduction of the decoder). -/
theorem flags_from_bytes_bytes (b0 b1 : Nat) (rest : List Nat) :
    DnsFlags.from_bytes (b0 :: b1 :: rest) 0 =
      .ok ⟨b0 >>> 7, DnsOpcode.from_u8 ((b0 >>> 3) &&& 15), (b0 >>> 2) &&& 1,
          (b0 >>> 1) &&& 1, b0 &&& 1, b1 >>> 7, (b1 >>> 6) &&& 1, (b1 >>> 5) &&& 1,
          (b1 >>> 4) &&& 1, DnsRcode.from_u8 (b1 &&& 15)⟩ := rfl

/-- The two bytes of an encoded wire-faithful flags value written as plain
sums. -/
theorem flags_to_bytes_sums {f : DnsFlags} (hWF : flagsWF f) :
    f.to_bytes = [f.qr * 128 + f.opcode.to_u8 * 8 + f.aa * 4 + f.tc * 2 + f.rd,
      f.ra * 128 + f.z * 64 + f.ad * 32 + f.cd * 16 + f.rcode.to_u8] := by
  obtain ⟨hqr, haa, htc, hrd, hra, hz, had, hcd, hrc⟩ := hWF
  have hop : f.opcode.to_u8 ≤ 15 := le_trans (DnsOpcode.to_u8_le _) (by norm_num)
  have hrc15 : f.rcode.to_u8 ≤ 15 := le_trans (DnsRcode.to_u8_le_10 _ hrc) (by norm_num)
  unfold DnsFlags.to_bytes
  rw [byte0_decomp hqr hop haa htc hrd, byte1_decomp hra hz had hcd hrc15]

theorem flags_from_bytes_encode {f : DnsFlags} (hWF : flagsWF f)
    {data rest : List Nat} {off : Nat}
    (h : data.drop off = f.to_bytes ++ rest) :
    DnsFlags.from_bytes data off = .ok f := by
  obtain ⟨hqr, haa, htc, hrd, hra, hz, had, hcd, hrc⟩ := hWF
  have hop : f.opcode.to_u8 ≤ 15 := le_trans (DnsOpcode.to_u8_le _) (by norm_num)
  have hrc15 : f.rcode.to_u8 ≤ 15 := le_trans (DnsRcode.to_u8_le_10 _ hrc) (by norm_num)
  rw [flags_to_bytes_sums ⟨hqr, haa, htc, hrd, hra, hz, had, hcd, hrc⟩] at h
  have h' : data.drop off =
      (f.qr * 128 + f.opcode.to_u8 * 8 + f.aa * 4 + f.tc * 2 + f.rd) ::
      ((f.ra * 128 + f.z * 64 + f.ad * 32 + f.cd * 16 + f.rcode.to_u8) :: rest) := by
    simpa using h
  unfold DnsFlags.from_bytes
  rw [readByte_of_drop h', readByte_of_drop (drop_succ_of_drop h')]
  simp only [Res.bind_ok]
  obtain ⟨e0a, e0b, e0c, e0d, e0e⟩ := byte0_extract hqr hop haa htc hrd
  obtain ⟨e1a, e1b, e1c, e1d, e1e⟩ := byte1_extract hra hz had hcd hrc15
  rw [e0a, e0b, e0c, e0d, e0e, e1a, e1b, e1c, e1d, e1e, DnsOpcode.from_u8_to_u8,
    DnsRcode.from8_to8 _ hrc]

/-- Decoding twelve explicit header bytes (pure reduction of the decoder at
offset 0, where the hardcoded flag position 2 coincides with the header's
own flag bytes). -/
theorem header_from_bytes_bytes (b0 b1 b2 b3 b4 b5 b6 b7 b8 b9 b10 b11 : Nat)
    (rest : List Nat) :
    DnsHeader.from_bytes
        (b0 :: b1 :: b2 :: b3 :: b4 :: b5 :: b6 :: b7 :: b8 :: b9 :: b10 :: b11 :: rest) 0 =
      .ok ⟨be16 b0 b1,
          ⟨b2 >>> 7, DnsOpcode.from_u8 ((b2 >>> 3) &&& 15), (b2 >>> 2) &&& 1,
           (b2 >>> 1) &&& 1, b2 &&& 1, b3 >>> 7, (b3 >>> 6) &&& 1, (b3 >>> 5) &&& 1,
           (b3 >>> 4) &&& 1, DnsRcode.from_u8 (b3 &&& 15)⟩,
          be16 b4 b5, be16 b6 b7, be16 b8 b9, be16 b10 b11⟩ := rfl

theorem header_from_bytes_encode {H : DnsHeader} (hWF : headerWF H) (rest : List Nat) :
    DnsHeader.from_bytes (H.to_bytes ++ rest) 0 = .ok H := by
  obtain ⟨hid, hfl, hqd, han, hns, har⟩ := hWF
  obtain ⟨hqr, haa, htc, hrd, hra, hz, had, hcd, hrc⟩ := hfl
  have hop : H.flags.opcode.to_u8 ≤ 15 := le_trans (DnsOpcode.to_u8_le _) (by norm_num)
  have hrc15 : H.flags.rcode.to_u8 ≤ 15 :=
    le_trans (DnsRcode.to_u8_le_10 _ hrc) (by norm_num)
  have hcons : H.to_bytes ++ rest =
      (H.id >>> 8) % 256 :: H.id % 256 ::
      (H.flags.qr * 128 + H.flags.opcode.to_u8 * 8 + H.flags.aa * 4 +
        H.flags.tc * 2 + H.flags.rd) ::
      (H.flags.ra * 128 + H.flags.z * 64 + H.flags.ad * 32 + H.flags.cd * 16 +
        H.flags.rcode.to_u8) ::
      (H.qdcount >>> 8) % 256 :: H.qdcount % 256 ::
      (H.ancount >>> 8) % 256 :: H.ancount % 256 ::
      (H.nscount >>> 8) % 256 :: H.nscount % 256 ::
      (H.arcount >>> 8) % 256 :: H.arcount % 256 :: rest := by
    unfold DnsHeader.to_bytes
    rw [flags_to_bytes_sums ⟨hqr, haa, htc, hrd, hra, hz, had, hcd, hrc⟩]
    rfl
  rw [hcons, header_from_bytes_bytes]
  obtain ⟨e0a, e0b, e0c, e0d, e0e⟩ := byte0_extract hqr hop haa htc hrd
  obtain ⟨e1a, e1b, e1c, e1d, e1e⟩ := byte1_extract hra hz had hcd hrc15
  rw [e0a, e0b, e0c, e0d, e0e, e1a, e1b, e1c, e1d, e1e, DnsOpcode.from_u8_to_u8,
    DnsRcode.from8_to8 _ hrc, be16_split hid, be16_split hqd, be16_split han,
    be16_split hns, be16_split har]

/-! ## Question codec lemmas -/

theorem questionAt12F_succ (k : Nat) (data : List Nat) :
    questionAt12F (k + 1) data = DnsQuestion.from_bytes k data 12 := rfl

theorem question_from_bytes_encode {qF : Nat} {data rest : List Nat} {off : Nat}
    {q : DnsQuestion}
    (hptr : q.qname.pointer = 0) (hlabs : ∀ lab ∈ q.qname.labels, labelWF lab)
    (hoff : q.qname.offset = if q.qname.labels = [] then 0 else off % 65536)
    (hclass : q.qclass ≠ DnsClass.Unassigned)
    (h : data.drop off = q.to_bytes ++ rest) :
    DnsQuestion.from_bytes qF data off = .ok q := by
  obtain ⟨⟨ls, o, ptr⟩, qt, qc⟩ := q
  simp only at hptr hlabs hoff hclass
  subst hptr
  have hdrop : data.drop off = encodeLabels ls ++ 0 :: (qt.to_bytes ++ (qc.to_bytes ++ rest)) := by
    rw [h]
    simp only [DnsQuestion.to_bytes]
    rw [name_to_bytes_plain (n := ⟨ls, o, 0⟩) rfl]
    simp [List.append_assoc]
  have hname := @name_from_bytes_labels qF data off ls _ hlabs hdrop
  unfold DnsQuestion.from_bytes
  rw [hname]
  simp only [Res.bind_ok]
  have hlen : DnsName.length ⟨ls, if ls = [] then 0 else off % 65536, 0⟩ =
      (encodeLabels ls).length + 1 := by
    rw [name_length_plain rfl, encodeLabels_length]
  have d1 : data.drop (off + (encodeLabels ls).length) =
      0 :: (qt.to_bytes ++ (qc.to_bytes ++ rest)) := by
    have := drop_add_of_drop hdrop (encodeLabels ls).length
    rwa [List.drop_left] at this
  have d2 : data.drop (off + (encodeLabels ls).length + 1) =
      qt.to_bytes ++ (qc.to_bytes ++ rest) := drop_succ_of_drop d1
  have d2' : data.drop (off + ((encodeLabels ls).length + 1)) =
      (qt.to_u16 >>> 8) % 256 :: qt.to_u16 % 256 ::
      (qc.to_u16 >>> 8) % 256 :: qc.to_u16 % 256 :: rest := by
    rw [← Nat.add_assoc]
    rw [d2]
    rfl
  unfold finishQuestion
  rw [hlen]
  rw [readByte_of_drop d2', readByte_add_of_drop 1 d2' rfl,
    readByte_add_of_drop 2 d2' rfl, readByte_add_of_drop 3 d2' rfl]
  simp only [Res.bind_ok]
  rw [be16_split (DnsQType.to_u16_lt_q qt), be16_split (DnsClass.to_u16_lt_c qc),
    DnsQType.from_u16_to_u16, DnsClass.from_u16_to_u16c qc hclass, hoff]

/-! ## Resource record codec lemmas -/

theorem drop_after_name {data tail : List Nat} {pos : Nat} {nm : DnsName}
    (h : data.drop pos = nm.to_bytes ++ tail) :
    data.drop (pos + nm.length) = tail := by
  have := drop_add_of_drop h nm.to_bytes.length
  rw [List.drop_left] at this
  rwa [name_to_bytes_length] at this

/-- Decoding a record's name from its own encoding: label form re-reads the
labels, pointer form resolves through the question parse. -/
theorem record_name_step {qF : Nat} {data tail : List Nat} {pos : Nat}
    {q : DnsQuestion} {nm : DnsName}
    (hq12 : questionAt12F qF data = .ok q)
    (hname : recordNameWF q pos nm)
    (hqoff : q.qname.offset < 16384)
    (hpos : pos < 65536)
    (h : data.drop pos = nm.to_bytes ++ tail) :
    DnsName.from_bytes qF data pos = .ok nm := by
  obtain ⟨ls, o, ptr⟩ := nm
  rcases hname with ⟨hptr, hlabs, hoff⟩ | ⟨hne, hqp, hlab, hoff0⟩
  · simp only at hptr hlabs hoff
    subst hptr
    rw [name_to_bytes_plain (n := ⟨ls, o, 0⟩) rfl] at h
    simp only [List.append_assoc, List.singleton_append] at h
    rw [name_from_bytes_labels hlabs h]
    rw [Nat.mod_eq_of_lt hpos]
    rw [← hoff]
  · simp only at hne hqp hlab hoff0
    subst hoff0
    subst hlab
    have hp16 : ptr < 16384 := hqp ▸ hqoff
    have hbytes : (⟨q.qname.labels, 0, ptr⟩ : DnsName).to_bytes =
        [192 ||| ((ptr >>> 8) % 256), ptr % 256] := by
      unfold DnsName.to_bytes
      simp [hne]
    rw [hbytes] at h
    simp only [List.cons_append, List.nil_append] at h
    exact name_from_bytes_ptr hp16 h hq12 hqp.symm

theorem record_from_bytes_encode {qF : Nat} {data rest : List Nat} {pos : Nat}
    {q : DnsQuestion} {rr : DnsResourceRecord}
    (hq12 : questionAt12F qF data = .ok q)
    (hname : recordNameWF q pos rr.name)
    (hrdlen : rr.rdlength = rr.rdata.length)
    (httl : rr.ttl < 4294967296)
    (hclass : rr.rtype ≠ DnsQType.OPT → rr.rclass ≠ DnsClass.Unassigned)
    (hopt : rr.rtype = DnsQType.OPT →
      rr.rclass = DnsClass.IN ∧ rr.ttl = 0 ∧ rest = [])
    (hqoff : q.qname.offset < 16384)
    (hlen : data.length < 65536)
    (h : data.drop pos = rr.to_bytes ++ rest) :
    DnsResourceRecord.from_bytes qF data pos = .ok rr := by
  obtain ⟨nm, rt, rc, ttlv, rdl, rdata⟩ := rr
  simp only at hname hrdlen httl hclass hopt
  have hpos : pos < 65536 := by
    have hl := congrArg List.length h
    simp only [List.length_drop, List.length_append] at hl
    have h1 : 1 ≤ nm.to_bytes.length := by
      rw [name_to_bytes_length]
      unfold DnsName.length
      by_cases hp : nm.pointer = 0 <;> simp [hp] <;> omega
    have h2 : 1 ≤ (DnsResourceRecord.to_bytes ⟨nm, rt, rc, ttlv, rdl, rdata⟩).length := by
      unfold DnsResourceRecord.to_bytes
      simp only [List.length_append]
      omega
    omega
  by_cases hOPT : rt = DnsQType.OPT
  · subst hOPT
    obtain ⟨hrcIN, httl0, hrest⟩ := hopt rfl
    subst hrcIN
    subst httl0
    subst hrest
    have hsplit : data.drop pos = nm.to_bytes ++
        (DnsQType.OPT.to_bytes ++ rdata) := by
      rw [h]
      unfold DnsResourceRecord.to_bytes
      simp [List.append_assoc]
    have hafter : data.drop (pos + nm.length) = DnsQType.OPT.to_bytes ++ rdata :=
      drop_after_name hsplit
    have hafter' : data.drop (pos + nm.length) = 0 :: 41 :: rdata := hafter
    have hnm := record_name_step hq12 hname hqoff hpos hsplit
    unfold DnsResourceRecord.from_bytes
    rw [hnm]
    simp only [Res.bind_ok]
    rw [readByte_of_drop hafter', readByte_add_of_drop 1 hafter' rfl]
    simp only [Res.bind_ok]
    have hbe : be16 0 41 = 41 := rfl
    rw [hbe]
    simp only [if_pos rfl, reduceIte]
    have hlena : (data.drop (pos + nm.length)).length = data.length - (pos + nm.length) :=
      List.length_drop _ _
    rw [hafter'] at hlena
    simp only [List.length_cons] at hlena
    have hb1 : pos + nm.length + 2 ≤ data.length := by omega
    have hmod1 : (pos + nm.length) % 65536 = pos + nm.length :=
      Nat.mod_eq_of_lt (by omega)
    have hmod2 : data.length % 65536 = data.length := Nat.mod_eq_of_lt hlen
    rw [hmod1, hmod2, if_pos (by omega)]
    simp only [Res.bind_ok]
    have hd2 : data.drop (pos + nm.length + 2) = rdata := by
      have := drop_add_of_drop hafter' 2
      simpa using this
    rw [readSliceFrom_of_drop hb1 hd2]
    simp only [Res.bind_ok]
    have hrdl : data.length - (pos + nm.length) - 2 = rdl := by
      rw [hrdlen]
      omega
    rw [hrdl]
    rfl
  · have hclassne := hclass hOPT
    have hsplit : data.drop pos = nm.to_bytes ++
        (rt.to_bytes ++ ((rc.to_bytes ++
          [(ttlv >>> 24) % 256, (ttlv >>> 16) % 256, (ttlv >>> 8) % 256, ttlv % 256,
           (rdl >>> 8) % 256, rdl % 256] ++ rdata) ++ rest)) := by
      rw [h]
      unfold DnsResourceRecord.to_bytes
      rw [if_neg hOPT]
      simp [List.append_assoc]
    have hafter : data.drop (pos + nm.length) = rt.to_bytes ++ ((rc.to_bytes ++
        [(ttlv >>> 24) % 256, (ttlv >>> 16) % 256, (ttlv >>> 8) % 256, ttlv % 256,
         (rdl >>> 8) % 256, rdl % 256] ++ rdata) ++ rest) :=
      drop_after_name hsplit
    have hafter' : data.drop (pos + nm.length) =
        (rt.to_u16 >>> 8) % 256 :: rt.to_u16 % 256 ::
        (rc.to_u16 >>> 8) % 256 :: rc.to_u16 % 256 ::
        (ttlv >>> 24) % 256 :: (ttlv >>> 16) % 256 :: (ttlv >>> 8) % 256 :: ttlv % 256 ::
        (rdl >>> 8) % 256 :: rdl % 256 :: (rdata ++ rest) := by
      rw [hafter]
      simp [DnsQType.to_bytes, DnsClass.to_bytes]
    have hnm := record_name_step hq12 hname hqoff hpos hsplit
    unfold DnsResourceRecord.from_bytes
    rw [hnm]
    simp only [Res.bind_ok]
    rw [readByte_of_drop hafter', readByte_add_of_drop 1 hafter' rfl]
    simp only [Res.bind_ok]
    rw [be16_split (DnsQType.to_u16_lt_q rt)]
    have hne41 : rt.to_u16 ≠ 41 := fun e => hOPT ((DnsQType.to_u16_eq_41_iff rt).mp e)
    rw [if_neg hne41]
    rw [readByte_add_of_drop 2 hafter' rfl, readByte_add_of_drop 3 hafter' rfl,
      readByte_add_of_drop 4 hafter' rfl, readByte_add_of_drop 5 hafter' rfl,
      readByte_add_of_drop 6 hafter' rfl, readByte_add_of_drop 7 hafter' rfl,
      readByte_add_of_drop 8 hafter' rfl, readByte_add_of_drop 9 hafter' rfl]
    simp only [Res.bind_ok]
    have hlena : (data.drop (pos + nm.length)).length = data.length - (pos + nm.length) :=
      List.length_drop _ _
    rw [hafter'] at hlena
    simp only [List.length_cons, List.length_append] at hlena
    have hrdl16 : rdl < 65536 := by
      rw [hrdlen]
      omega
    rw [be16_split (DnsClass.to_u16_lt_c rc), be16_split hrdl16, be32_split httl]
    have hd10 : data.drop (pos + nm.length + 10) = rdata ++ rest := by
      have := drop_add_of_drop hafter' 10
      simpa using this
    have hb10 : pos + nm.length + 10 ≤ data.length := by omega
    have hsl := readSlice_of_drop hb10 hd10
    rw [hrdlen, hsl]
    simp only [Res.bind_ok]
    rw [DnsQType.from_u16_to_u16, DnsClass.from_u16_to_u16c rc hclassne, ← hrdlen]

theorem header_to_bytes_length (H : DnsHeader) : H.to_bytes.length = 12 := by
  simp [DnsHeader.to_bytes, DnsFlags.to_bytes]

theorem question_to_bytes_length (q : DnsQuestion) :
    q.to_bytes.length = q.qname.length + 4 := by
  simp [DnsQuestion.to_bytes, DnsQType.to_bytes, DnsClass.to_bytes,
    name_to_bytes_length]

theorem record_to_bytes_length {rr : DnsResourceRecord} (h : rr.rtype ≠ DnsQType.OPT)
    (hrdlen : rr.rdlength = rr.rdata.length) :
    rr.to_bytes.length = rr.name.length + 10 + rr.rdlength := by
  unfold DnsResourceRecord.to_bytes
  rw [if_neg h]
  simp [DnsQType.to_bytes, DnsClass.to_bytes, name_to_bytes_length, hrdlen]
  omega

theorem records_from_bytes_encode {qF : Nat} {data : List Nat} {q : DnsQuestion}
    (hq12 : questionAt12F qF data = .ok q) (hqoff : q.qname.offset < 16384)
    (hlen : data.length < 65536) :
    ∀ (recs : List DnsResourceRecord) (pos : Nat) (acc : List DnsResourceRecord),
    recordsWF q pos recs →
    data.drop pos = recordsToBytes recs →
    parseRecords qF data pos recs.length acc = .ok (acc ++ recs) := by
  intro recs
  induction recs with
  | nil =>
    intro pos acc _ _
    simp [parseRecords]
  | cons rr rest ih =>
    intro pos acc hWF h
    obtain ⟨⟨hn, hrd, httl, hifopt, hclass⟩, hrest⟩ := hWF
    have h' : data.drop pos = rr.to_bytes ++ recordsToBytes rest := h
    have hopt : rr.rtype = DnsQType.OPT →
        rr.rclass = DnsClass.IN ∧ rr.ttl = 0 ∧ recordsToBytes rest = [] := by
      intro he
      obtain ⟨h1, h2, h3⟩ := hifopt he
      exact ⟨h1, h2, by rw [h3]; rfl⟩
    have hrec := record_from_bytes_encode hq12 hn hrd httl hclass hopt hqoff hlen h'
    show parseRecords qF data pos (rest.length + 1) acc = _
    unfold parseRecords
    rw [hrec]
    simp only [Res.bind_ok]
    by_cases hOPT : rr.rtype = DnsQType.OPT
    · obtain ⟨_, _, hempty⟩ := hopt hOPT
      have hrestnil : rest = [] := by
        cases rest with
        | nil => rfl
        | cons a l =>
          exfalso
          have : (recordsToBytes (a :: l)).length = 0 := by rw [hempty]; rfl
          simp only [recordsToBytes, List.length_append] at this
          have h2 : 1 ≤ a.to_bytes.length := by
            have hb : 1 ≤ a.name.to_bytes.length := by
              rw [name_to_bytes_length]
              unfold DnsName.length
              by_cases hp : a.name.pointer = 0 <;> simp [hp] <;> omega
            unfold DnsResourceRecord.to_bytes
            simp only [List.length_append]
            omega
          omega
      subst hrestnil
      simp [parseRecords]
    · have hnext : data.drop (pos + rr.name.length + 10 + rr.rdlength) =
          recordsToBytes rest := by
        have hlenrr := record_to_bytes_length hOPT hrd
        have := drop_add_of_drop h' rr.to_bytes.length
        rw [List.drop_left, hlenrr] at this
        rw [← this]
        congr 1
        omega
      have := ih (pos + rr.name.length + 10 + rr.rdlength) (acc ++ [rr]) hrest hnext
      rw [this]
      simp

theorem qname_offset_lt {q : DnsQuestion} (hq : questionWF q) :
    q.qname.offset < 16384 := by
  obtain ⟨_, _, hoff, _⟩ := hq
  rw [hoff]
  by_cases h : q.qname.labels = [] <;> simp [h]

/-- The byte contribution of an optional record section. -/
def optRecordsBytes : Option (List DnsResourceRecord) → List Nat
  | some records => recordsToBytes records
  | none => []

theorem request_to_bytes_eq (r : DnsRequest) :
    r.to_bytes = r.header.to_bytes ++ (r.question.to_bytes ++ optRecordsBytes r.additional) := by
  unfold DnsRequest.to_bytes optRecordsBytes
  cases r.additional <;> simp [List.append_assoc]

theorem response_to_bytes_eq (s : DnsResponse) :
    s.to_bytes = s.header.to_bytes ++ (s.question.to_bytes ++ optRecordsBytes s.answers) := by
  unfold DnsResponse.to_bytes optRecordsBytes
  cases s.answers <;> simp [List.append_assoc]

theorem request_from_bytes_encode {qF : Nat} {r : DnsRequest} (hWF : requestWF r) :
    DnsRequest.from_bytes (qF + 1) r.to_bytes 0 = .ok r := by
  obtain ⟨H, q, addl⟩ := r
  obtain ⟨hh, hq, hlen, hadd⟩ := hWF
  simp only at hh hq hlen hadd
  have hlen' : (DnsRequest.to_bytes ⟨H, q, addl⟩).length < 65536 := hlen
  have hsplit := request_to_bytes_eq ⟨H, q, addl⟩
  simp only at hsplit
  have hd12 : (DnsRequest.to_bytes ⟨H, q, addl⟩).drop 12 =
      q.to_bytes ++ optRecordsBytes addl := by
    rw [hsplit, ← header_to_bytes_length H]
    exact List.drop_left _ _
  obtain ⟨hqptr, hqlabs, hqoff, hqclass⟩ := hq
  have hquestion : ∀ k, DnsQuestion.from_bytes k (DnsRequest.to_bytes ⟨H, q, addl⟩) 12 =
      .ok q := by
    intro k
    exact question_from_bytes_encode hqptr hqlabs (by simpa using hqoff) hqclass hd12
  have hq12 : questionAt12F (qF + 1) (DnsRequest.to_bytes ⟨H, q, addl⟩) = .ok q := by
    rw [questionAt12F_succ]
    exact hquestion qF
  unfold DnsRequest.from_bytes
  rw [hsplit, header_from_bytes_encode hh]
  rw [← hsplit]
  simp only [Res.bind_ok, Nat.zero_add]
  rw [hquestion (qF + 1)]
  simp only [Res.bind_ok]
  cases addl with
  | none =>
    simp only [sectionWF] at hadd
    rw [if_neg (by omega)]
  | some recs =>
    obtain ⟨harc, hne, hrecs⟩ := hadd
    rw [if_pos (by rw [harc]; exact List.length_pos.mpr hne)]
    have hdrecs : (DnsRequest.to_bytes ⟨H, q, some recs⟩).drop (12 + q.qname.length + 4) =
        recordsToBytes recs := by
      have hstep := drop_add_of_drop hd12 q.to_bytes.length
      rw [List.drop_left] at hstep
      simp only [optRecordsBytes] at hstep
      rw [← hstep]
      congr 1
      rw [question_to_bytes_length q]
      omega
    have hparse := records_from_bytes_encode hq12
      (qname_offset_lt ⟨hqptr, hqlabs, hqoff, hqclass⟩)
      hlen' recs (12 + q.qname.length + 4) [] hrecs hdrecs
    rw [harc, hparse]
    simp

theorem response_from_bytes_encode {qF : Nat} {s : DnsResponse} (hWF : responseWF s) :
    DnsResponse.from_bytes (qF + 1) s.to_bytes 0 = .ok s := by
  obtain ⟨H, q, answ⟩ := s
  obtain ⟨hh, hq, hlen, hans⟩ := hWF
  simp only at hh hq hlen hans
  have hlen' : (DnsResponse.to_bytes ⟨H, q, answ⟩).length < 65536 := hlen
  have hsplit := response_to_bytes_eq ⟨H, q, answ⟩
  simp only at hsplit
  have hd12 : (DnsResponse.to_bytes ⟨H, q, answ⟩).drop 12 =
      q.to_bytes ++ optRecordsBytes answ := by
    rw [hsplit, ← header_to_bytes_length H]
    exact List.drop_left _ _
  obtain ⟨hqptr, hqlabs, hqoff, hqclass⟩ := hq
  have hquestion : ∀ k, DnsQuestion.from_bytes k (DnsResponse.to_bytes ⟨H, q, answ⟩) 12 =
      .ok q := by
    intro k
    exact question_from_bytes_encode hqptr hqlabs (by simpa using hqoff) hqclass hd12
  have hq12 : questionAt12F (qF + 1) (DnsResponse.to_bytes ⟨H, q, answ⟩) = .ok q := by
    rw [questionAt12F_succ]
    exact hquestion qF
  unfold DnsResponse.from_bytes
  rw [hsplit, header_from_bytes_encode hh]
  rw [← hsplit]
  simp only [Res.bind_ok, Nat.zero_add]
  rw [hquestion (qF + 1)]
  simp only [Res.bind_ok]
  cases answ with
  | none =>
    simp only [sectionWF] at hans
    rw [hans]
    simp [parseRecords]
  | some recs =>
    obtain ⟨hanc, hne, hrecs⟩ := hans
    have hdrecs : (DnsResponse.to_bytes ⟨H, q, some recs⟩).drop (12 + q.qname.length + 4) =
        recordsToBytes recs := by
      have hstep := drop_add_of_drop hd12 q.to_bytes.length
      rw [List.drop_left] at hstep
      simp only [optRecordsBytes] at hstep
      rw [← hstep]
      congr 1
      rw [question_to_bytes_length q]
      omega
    have hparse := records_from_bytes_encode hq12
      (qname_offset_lt ⟨hqptr, hqlabs, hqoff, hqclass⟩)
      hlen' recs (12 + q.qname.length + 4) [] hrecs hdrecs
    rw [hanc, hparse]
    simp only [Res.bind_ok, List.nil_append]
    rw [if_neg (by intro e; exact hne (List.length_eq_zero.mp e))]

/-! ## Decidability of the wire-faithfulness predicates (so that concrete
witnesses evaluate) -/

instance (lab : List Nat) : Decidable (labelWF lab) :=
  inferInstanceAs (Decidable (1 ≤ lab.length ∧ lab.length ≤ 63 ∧ validUtf8 lab = true))

instance (r : DnsRcode) : Decidable (rcodeHeaderWF r) :=
  inferInstanceAs (Decidable (_ ∨ _ ∨ _ ∨ _ ∨ _ ∨ _ ∨ _ ∨ _ ∨ _ ∨ _ ∨ _))

instance (f : DnsFlags) : Decidable (flagsWF f) :=
  inferInstanceAs (Decidable (_ ∧ _ ∧ _ ∧ _ ∧ _ ∧ _ ∧ _ ∧ _ ∧ _))

instance (h : DnsHeader) : Decidable (headerWF h) :=
  inferInstanceAs (Decidable (_ ∧ _ ∧ _ ∧ _ ∧ _ ∧ _))

instance (q : DnsQuestion) : Decidable (questionWF q) :=
  inferInstanceAs (Decidable (_ ∧ (∀ lab ∈ q.qname.labels, labelWF lab) ∧ _ ∧ _))

instance (q : DnsQuestion) (pos : Nat) (n : DnsName) : Decidable (recordNameWF q pos n) :=
  inferInstanceAs (Decidable ((_ ∧ (∀ lab ∈ n.labels, labelWF lab) ∧ _) ∨ (_ ∧ _ ∧ _ ∧ _)))

instance recordWFDec (q : DnsQuestion) (pos : Nat) (last : Prop) [Decidable last]
    (rr : DnsResourceRecord) : Decidable (recordWF q pos last rr) :=
  inferInstanceAs (Decidable (_ ∧ _ ∧ _ ∧ _ ∧ _))

instance recordsWFDec (q : DnsQuestion) :
    (pos : Nat) → (l : List DnsResourceRecord) → Decidable (recordsWF q pos l)
  | _, [] => isTrue trivial
  | pos, rr :: rest =>
    letI : Decidable (recordsWF q (pos + rr.name.length + 10 + rr.rdlength) rest) :=
      recordsWFDec q _ rest
    inferInstanceAs (Decidable (recordWF q pos (rest = []) rr ∧
      recordsWF q (pos + rr.name.length + 10 + rr.rdlength) rest))

instance sectionWFDec (q : DnsQuestion) (count : Nat) :
    (o : Option (List DnsResourceRecord)) → Decidable (sectionWF q count o)
  | none => inferInstanceAs (Decidable (count = 0))
  | some records => inferInstanceAs (Decidable (count = records.length ∧ records ≠ [] ∧
      recordsWF q (12 + q.qname.length + 4) records))

instance (r : DnsRequest) : Decidable (requestWF r) :=
  inferInstanceAs (Decidable (_ ∧ _ ∧ _ ∧ _))

instance (s : DnsResponse) : Decidable (responseWF s) :=
  inferInstanceAs (Decidable (_ ∧ _ ∧ _ ∧ _))

/-! ## Concrete message values (the repository's own test vectors) -/

/-- The request of the repository's `decode_request` test: id 0x4146,
rd=1, ad=1, one question for mycelnet.tech A IN, one OPT additional
record. -/
def exampleRequest : DnsRequest :=
  ⟨⟨16710, ⟨0, .Query, 0, 0, 1, 0, 0, 1, 0, .NoError⟩, 1, 0, 0, 1⟩,
   ⟨⟨[[109, 121, 99, 101, 108, 110, 101, 116], [116, 101, 99, 104]], 12, 0⟩, .A, .IN⟩,
   some [⟨⟨[], 0, 0⟩, .OPT, .IN, 0, 20,
     [4, 208, 0, 0, 0, 0, 0, 12, 0, 10, 0, 8, 49, 185, 178, 56, 1, 186, 26, 254]⟩]⟩

/-- The response of the repository's `decode_response` test: two A answers
whose names are compression pointers to the question name at offset 12. -/
def exampleResponse : DnsResponse :=
  ⟨⟨17519, ⟨1, .Query, 0, 0, 1, 1, 0, 0, 0, .NoError⟩, 1, 2, 0, 1⟩,
   ⟨⟨[[109, 121, 99, 101, 108, 110, 101, 116], [116, 101, 99, 104]], 12, 0⟩, .A, .IN⟩,
   some [⟨⟨[[109, 121, 99, 101, 108, 110, 101, 116], [116, 101, 99, 104]], 0, 12⟩,
            .A, .IN, 30, 4, [104, 21, 35, 146]⟩,
         ⟨⟨[[109, 121, 99, 101, 108, 110, 101, 116], [116, 101, 99, 104]], 0, 12⟩,
            .A, .IN, 30, 4, [172, 67, 176, 182]⟩]⟩

/-- The wire bytes of `exampleResponse` (the `decode_response` test input). -/
def exampleResponseBytes : List Nat :=
  [68, 111, 129, 128, 0, 1, 0, 2, 0, 0, 0, 1,
   8, 109, 121, 99, 101, 108, 110, 101, 116, 4, 116, 101, 99, 104, 0, 0, 1, 0, 1,
   192, 12, 0, 1, 0, 1, 0, 0, 0, 30, 0, 4, 104, 21, 35, 146,
   192, 12, 0, 1, 0, 1, 0, 0, 0, 30, 0, 4, 172, 67, 176, 182]

/-- The wire bytes of `exampleRequest` (the `decode_request` test input). -/
def exampleRequestBytes : List Nat :=
  [65, 70, 1, 32, 0, 1, 0, 0, 0, 0, 0, 1,
   8, 109, 121, 99, 101, 108, 110, 101, 116, 4, 116, 101, 99, 104, 0, 0, 1, 0, 1,
   0, 0, 41, 4, 208, 0, 0, 0, 0, 0, 12, 0, 10, 0, 8, 49, 185, 178, 56, 1, 186, 26, 254]

/-- C1: for every wire-faithful DNS message value, decoding the bytes
produced by encoding it (at offset 0, with any positive pointer-resolution
fuel) returns exactly that value; consequently re-encoding the decode of
any buffer a prior encode produced reproduces the buffer byte for byte. -/
theorem round_trip_claim :
    (∀ (k : Nat) (r : DnsRequest), requestWF r →
      DnsRequest.from_bytes (k + 1) r.to_bytes 0 = .ok r) ∧
    (∀ (k : Nat) (s : DnsResponse), responseWF s →
      DnsResponse.from_bytes (k + 1) s.to_bytes 0 = .ok s) ∧
    (∀ (k : Nat) (r : DnsRequest) (x : DnsRequest), requestWF r →
      DnsRequest.from_bytes (k + 1) r.to_bytes 0 = .ok x →
      x.to_bytes = r.to_bytes) ∧
    (∀ (k : Nat) (s : DnsResponse) (x : DnsResponse), responseWF s →
      DnsResponse.from_bytes (k + 1) s.to_bytes 0 = .ok x →
      x.to_bytes = s.to_bytes) := by
  refine ⟨fun k r h => request_from_bytes_encode h,
    fun k s h => response_from_bytes_encode h, ?_, ?_⟩
  · intro k r x h hx
    rw [request_from_bytes_encode h] at hx
    cases hx
    rfl
  · intro k s x h hx
    rw [response_from_bytes_encode h] at hx
    cases hx
    rfl

/-- C1 witness: the round trip evaluated on the repository's own request
and response test vectors. -/
theorem round_trip_claim_witness :
    DnsRequest.from_bytes 8 exampleRequest.to_bytes 0 = .ok exampleRequest ∧
    DnsResponse.from_bytes 8 exampleResponse.to_bytes 0 = .ok exampleResponse ∧
    exampleRequest.to_bytes = exampleRequestBytes ∧
    exampleResponse.to_bytes = exampleResponseBytes :=
  ⟨round_trip_claim.1 7 exampleRequest (by decide),
   round_trip_claim.2.1 7 exampleResponse (by decide),
   by decide, by decide⟩

/-- A request asking for an AAAA record (id 7, rd=1, name "a"). -/
def exampleQuadARequest : DnsRequest :=
  ⟨⟨7, ⟨0, .Query, 0, 0, 1, 0, 0, 0, 0, .NoError⟩, 1, 0, 0, 0⟩,
   ⟨⟨[[97]], 12, 0⟩, .AAAA, .IN⟩, none⟩

/-- C2 counterexample: `from_request` does not synthesize an answer of type
A — it copies the request question's qtype, so an AAAA query yields an
AAAA answer record. -/
theorem from_request_qtype_counterexample :
    ((DnsResponse.from_request exampleQuadARequest).answers.getD []).map
        (fun rr => rr.rtype) = [DnsQType.AAAA] ∧
    ((DnsResponse.from_request exampleQuadARequest).answers.getD []).map
        (fun rr => rr.rtype) ≠ [DnsQType.A] := by
  decide

/-- C2 (amended): `from_request` copies the id, sets qr=1, preserves rd,
forces ra=1, sets ancount=1, nscount=0, arcount=0, copies the question, and
synthesizes one answer record bound to the request's qname of the
request's own qtype and qclass (not always type A), ttl 300, rdlength 4
and rdata 127.0.0.1. -/
theorem from_request_fields (r : DnsRequest) :
    (DnsResponse.from_request r).header.id = r.header.id ∧
    (DnsResponse.from_request r).header.flags.qr = 1 ∧
    (DnsResponse.from_request r).header.flags.rd = r.header.flags.rd ∧
    (DnsResponse.from_request r).header.flags.ra = 1 ∧
    (DnsResponse.from_request r).header.ancount = 1 ∧
    (DnsResponse.from_request r).header.nscount = 0 ∧
    (DnsResponse.from_request r).header.arcount = 0 ∧
    (DnsResponse.from_request r).question = r.question ∧
    (DnsResponse.from_request r).answers =
      some [⟨r.question.qname, r.question.qtype, r.question.qclass, 300, 4,
        [127, 0, 0, 1]⟩] :=
  ⟨rfl, rfl, rfl, rfl, rfl, rfl, rfl, rfl, rfl⟩

/-- C3: on truncated input the decoders do not return a `FormatError`
result — they perform unchecked indexing and panic (`.fault`): a header
with fewer than 12 bytes from the offset, and a record whose declared
rdlength (5) exceeds the remaining bytes (0). -/
theorem truncated_decode_faults :
    DnsHeader.from_bytes [0, 1, 2, 3, 4] 0 = .fault ∧
    DnsHeader.from_bytes [0, 1, 2, 3, 4] 0 ≠ .err ∧
    DnsResourceRecord.from_bytes 8 [1, 97, 0, 0, 1, 0, 1, 0, 0, 0, 30, 0, 5] 0 = .fault ∧
    DnsResourceRecord.from_bytes 8 [1, 97, 0, 0, 1, 0, 1, 0, 0, 0, 30, 0, 5] 0 ≠ .err := by
  decide

/-- C4 counterexample: a zero compression pointer (bytes 0xC0 0x00) whose
target equals the question's offset field (0, because the question name at
offset 12 is empty and never records an offset).  Decoding succeeds and
copies the (empty) label list, but the returned name is not marked
pointer-compressed (`pointer = 0`) and its encoded length is 1, not the 2
bytes the claim says are consumed. -/
theorem pointer_resolution_counterexample :
    questionAt12F 8 [0, 0, 0, 0, 0, 0, 0, 0, 0, 0, 0, 0, 0, 0, 1, 0, 1, 192, 0] =
      .ok ⟨⟨[], 0, 0⟩, .A, .IN⟩ ∧
    DnsName.from_bytes 8 [0, 0, 0, 0, 0, 0, 0, 0, 0, 0, 0, 0, 0, 0, 1, 0, 1, 192, 0] 17 =
      .ok ⟨[], 0, 0⟩ ∧
    (⟨[], 0, 0⟩ : DnsName).pointer = 0 ∧
    DnsName.length ⟨[], 0, 0⟩ ≠ 2 := by
  decide

/-- C4 (amended): on a length byte with both top bits set, the decoder
forms the 14-bit pointer from the low 6 bits and the next byte and
compares it with the offset field of the question re-parsed at offset 12.
On a match it returns the question's labels with the pointer stored; the
name is marked pointer-compressed with encoded length 2 provided the
pointer is nonzero (a zero pointer, which can only match when the question
name is empty and thus unrecorded, leaves the name unmarked with length
1).  On a mismatch decoding fails with the error result. -/
theorem pointer_resolution (k : Nat) (data rest : List Nat) (i b b2 : Nat)
    (q : DnsQuestion)
    (hdrop : data.drop i = b :: b2 :: rest)
    (hb : b &&& 192 = 192)
    (hq : questionAt12F (k + 1) data = .ok q) :
    (q.qname.offset = ((b &&& 63) <<< 8) ||| b2 →
      DnsName.from_bytes (k + 1) data i =
        .ok ⟨q.qname.labels, 0, ((b &&& 63) <<< 8) ||| b2⟩ ∧
      (((b &&& 63) <<< 8) ||| b2 ≠ 0 →
        DnsName.length ⟨q.qname.labels, 0, ((b &&& 63) <<< 8) ||| b2⟩ = 2)) ∧
    (q.qname.offset ≠ ((b &&& 63) <<< 8) ||| b2 →
      DnsName.from_bytes (k + 1) data i = .err) := by
  constructor
  · intro hmatch
    constructor
    · unfold DnsName.from_bytes
      rw [parseLoop_ptr hdrop hb, hq]
      simp only [Res.bind_ok]
      rw [if_pos hmatch]
    · intro hne
      unfold DnsName.length
      simp [hne]
  · intro hmis
    exact name_from_bytes_ptr_mismatch hdrop hb hq hmis

/-- C4 witness: the first compressed answer name of the repository's
response test vector resolves to the question labels as a marked 2-byte
pointer, and redirecting the pointer to offset 13 fails. -/
theorem pointer_resolution_witness :
    DnsName.from_bytes 8 exampleResponseBytes 31 =
      .ok ⟨[[109, 121, 99, 101, 108, 110, 101, 116], [116, 101, 99, 104]], 0, 12⟩ ∧
    DnsName.length
      ⟨[[109, 121, 99, 101, 108, 110, 101, 116], [116, 101, 99, 104]], 0, 12⟩ = 2 ∧
    DnsName.from_bytes 8 (exampleResponseBytes.take 31 ++ [192, 13]) 31 = .err := by
  have h1 := pointer_resolution 7 exampleResponseBytes
    [0, 1, 0, 1, 0, 0, 0, 30, 0, 4, 104, 21, 35, 146, 192, 12,
     0, 1, 0, 1, 0, 0, 0, 30, 0, 4, 172, 67, 176, 182] 31 192 12
    ⟨⟨[[109, 121, 99, 101, 108, 110, 101, 116], [116, 101, 99, 104]], 12, 0⟩, .A, .IN⟩
    (by decide) (by decide) (by decide)
  have h2 := pointer_resolution 7 (exampleResponseBytes.take 31 ++ [192, 13]) [] 31 192 13
    ⟨⟨[[109, 121, 99, 101, 108, 110, 101, 116], [116, 101, 99, 104]], 12, 0⟩, .A, .IN⟩
    (by decide) (by decide) (by decide)
  obtain ⟨hpos, _⟩ := h1
  obtain ⟨hok, hlen⟩ := hpos (by decide)
  refine ⟨hok, hlen (by decide), ?_⟩
  exact h2.2 (by decide)

/-- C5: when the decoded rtype is 41 (OPT) the record decoder does not
read class/ttl/rdlength fields — it fixes class IN and ttl 0, sets
rdlength from the remaining length, and takes every remaining byte of the
message as rdata verbatim; and the encoder for an OPT record emits name
bytes, rtype bytes, then the raw rdata with no class/ttl/rdlength
fields. -/
theorem opt_record_codec :
    (∀ (qF : Nat) (data : List Nat) (offset : Nat) (n : DnsName) (b0 b1 : Nat),
      DnsName.from_bytes qF data offset = .ok n →
      data.get? (offset + n.length) = some b0 →
      data.get? (offset + n.length + 1) = some b1 →
      be16 b0 b1 = 41 →
      data.length < 65536 →
      DnsResourceRecord.from_bytes qF data offset =
        .ok ⟨n, DnsQType.OPT, DnsClass.IN, 0,
            data.length - (offset + n.length) - 2,
            data.drop (offset + n.length + 2)⟩) ∧
    (∀ rr : DnsResourceRecord, rr.rtype = DnsQType.OPT →
      rr.to_bytes = rr.name.to_bytes ++ rr.rtype.to_bytes ++ rr.rdata) := by
  constructor
  · intro qF data offset n b0 b1 hn hb0 hb1 hbe hlen
    have hidx : offset + n.length + 1 < data.length := by
      by_contra hc
      push_neg at hc
      rw [List.get?_eq_none.mpr hc] at hb1
      exact Option.noConfusion hb1
    unfold DnsResourceRecord.from_bytes
    rw [hn]
    simp only [Res.bind_ok]
    unfold readByte
    rw [hb0, hb1]
    simp only [Res.bind_ok]
    rw [hbe]
    simp only [if_pos rfl, reduceIte]
    have hm1 : (offset + n.length) % 65536 = offset + n.length :=
      Nat.mod_eq_of_lt (by omega)
    have hm2 : data.length % 65536 = data.length := Nat.mod_eq_of_lt hlen
    rw [hm1, hm2, if_pos (by omega)]
    simp only [Res.bind_ok]
    unfold readSliceFrom
    rw [if_pos (by omega : offset + n.length + 2 ≤ data.length)]
    simp only [Res.bind_ok]
    have h41 : DnsQType.from_u16 41 = DnsQType.OPT := rfl
    rw [h41]
  · intro rr h
    unfold DnsResourceRecord.to_bytes
    rw [if_pos h]

/-- C5 witness: the OPT additional record of the repository's request test
vector (at offset 31, root name, rtype bytes 0x00 0x29) decodes to class
IN, ttl 0, rdlength 20 and the 20 remaining bytes verbatim; its re-encoding
is name, rtype and raw rdata. -/
theorem opt_record_codec_witness :
    DnsResourceRecord.from_bytes 8 exampleRequestBytes 31 =
      .ok ⟨⟨[], 0, 0⟩, DnsQType.OPT, DnsClass.IN, 0, 20,
        [4, 208, 0, 0, 0, 0, 0, 12, 0, 10, 0, 8, 49, 185, 178, 56, 1, 186, 26, 254]⟩ ∧
    DnsResourceRecord.to_bytes ⟨⟨[], 0, 0⟩, DnsQType.OPT, DnsClass.IN, 0, 20,
        [4, 208, 0, 0, 0, 0, 0, 12, 0, 10, 0, 8, 49, 185, 178, 56, 1, 186, 26, 254]⟩ =
      DnsName.to_bytes ⟨[], 0, 0⟩ ++ DnsQType.OPT.to_bytes ++
        [4, 208, 0, 0, 0, 0, 0, 12, 0, 10, 0, 8, 49, 185, 178, 56, 1, 186, 26, 254] := by
  constructor
  · exact opt_record_codec.1 8 exampleRequestBytes 31 ⟨[], 0, 0⟩ 0 41
      (by decide) (by decide) (by decide) (by decide) (by decide)
  · exact opt_record_codec.2 _ rfl

/-- C6 counterexample: `from_u16` masks its input to the low 12 bits
before matching, so 4096 maps to `NoError`, not `Unassigned` as the
claimed 4096–65534 range says. -/
theorem rcode_from_u16_counterexample :
    DnsRcode.from_u16 4096 = DnsRcode.NoError ∧
    DnsRcode.from_u16 4096 ≠ DnsRcode.Unassigned := by
  decide

theorem from_u16_mod (n : Nat) :
    DnsRcode.from_u16 n = DnsRcode.from_u16 (n % 4096) := by
  unfold DnsRcode.from_u16
  rw [Nat.mod_mod_of_dvd n (dvd_refl 4096)]

/-- C6 (amended): `from_u16` first reduces its input to the low 12 bits
(RFC 6895 extended-RCODE width) and then applies the ranges 0–10 named,
11–15 unassigned, 16–22 named TSIG/TKEY errors, 23–3840 unassigned,
3841–4095 reserved; inputs of 4096 and above therefore map according to
their low 12 bits, and the source's arms for 4096–65534 and 65535 are
unreachable. -/
theorem rcode_from_u16_masked (n : Nat) :
    (n % 4096 = 0 → DnsRcode.from_u16 n = .NoError) ∧
    (n % 4096 = 1 → DnsRcode.from_u16 n = .FormatError) ∧
    (n % 4096 = 2 → DnsRcode.from_u16 n = .ServerFailure) ∧
    (n % 4096 = 3 → DnsRcode.from_u16 n = .NameError) ∧
    (n % 4096 = 4 → DnsRcode.from_u16 n = .NotImplemented) ∧
    (n % 4096 = 5 → DnsRcode.from_u16 n = .Refused) ∧
    (n % 4096 = 6 → DnsRcode.from_u16 n = .YXDomain) ∧
    (n % 4096 = 7 → DnsRcode.from_u16 n = .YXRRSet) ∧
    (n % 4096 = 8 → DnsRcode.from_u16 n = .NXRRSet) ∧
    (n % 4096 = 9 → DnsRcode.from_u16 n = .NotAuth) ∧
    (n % 4096 = 10 → DnsRcode.from_u16 n = .NotZone) ∧
    (11 ≤ n % 4096 ∧ n % 4096 ≤ 15 → DnsRcode.from_u16 n = .Unassigned) ∧
    (n % 4096 = 16 → DnsRcode.from_u16 n = .BadSignature) ∧
    (n % 4096 = 17 → DnsRcode.from_u16 n = .BadKey) ∧
    (n % 4096 = 18 → DnsRcode.from_u16 n = .BadTimestamp) ∧
    (n % 4096 = 19 → DnsRcode.from_u16 n = .BadMode) ∧
    (n % 4096 = 20 → DnsRcode.from_u16 n = .BadName) ∧
    (n % 4096 = 21 → DnsRcode.from_u16 n = .BadAlg) ∧
    (n % 4096 = 22 → DnsRcode.from_u16 n = .BadTruncation) ∧
    (23 ≤ n % 4096 ∧ n % 4096 ≤ 3840 → DnsRcode.from_u16 n = .Unassigned) ∧
    (3841 ≤ n % 4096 ∧ n % 4096 ≤ 4095 → DnsRcode.from_u16 n = .Reserved) := by
  refine ⟨fun h => by rw [from_u16_mod, h]; decide, fun h => by rw [from_u16_mod, h]; decide,
    fun h => by rw [from_u16_mod, h]; decide, fun h => by rw [from_u16_mod, h]; decide,
    fun h => by rw [from_u16_mod, h]; decide, fun h => by rw [from_u16_mod, h]; decide,
    fun h => by rw [from_u16_mod, h]; decide, fun h => by rw [from_u16_mod, h]; decide,
    fun h => by rw [from_u16_mod, h]; decide, fun h => by rw [from_u16_mod, h]; decide,
    fun h => by rw [from_u16_mod, h]; decide,
    (by
      intro h
      unfold DnsRcode.from_u16
      repeat rw [if_neg (by omega)]
      rw [if_pos (by omega)]),
    fun h => by rw [from_u16_mod, h]; decide, fun h => by rw [from_u16_mod, h]; decide,
    fun h => by rw [from_u16_mod, h]; decide, fun h => by rw [from_u16_mod, h]; decide,
    fun h => by rw [from_u16_mod, h]; decide, fun h => by rw [from_u16_mod, h]; decide,
    fun h => by rw [from_u16_mod, h]; decide, ?_, ?_⟩
  · intro h
    unfold DnsRcode.from_u16
    repeat rw [if_neg (by omega)]
    rw [if_pos (by omega)]
  · intro h
    unfold DnsRcode.from_u16
    repeat rw [if_neg (by omega)]
    rw [if_pos (by omega)]

/-- C6 witness: 4101 reduces to 5 modulo 4096 and decodes to `Refused`. -/
theorem rcode_from_u16_masked_witness : DnsRcode.from_u16 4101 = DnsRcode.Refused := by
  have h := rcode_from_u16_masked 4101
  exact h.2.2.2.2.2.1 (by norm_num)

/-- C7 counterexample: a flags value whose z field is 1 (as decoded from a
wire byte 0x40) re-encodes with the z bit of its second byte set to 1, not
0: the encoder does not force z to zero. -/
theorem z_bit_counterexample :
    DnsFlags.from_bytes [0, 64] 0 =
      .ok ⟨0, .Query, 0, 0, 0, 0, 1, 0, 0, .NoError⟩ ∧
    DnsFlags.to_bytes ⟨0, .Query, 0, 0, 0, 0, 1, 0, 0, .NoError⟩ = [0, 64] ∧
    ((64 : Nat) >>> 6) &&& 1 ≠ 0 := by
  decide

/-- C7 (amended): `to_bytes` emits the stored z field at bit 6 of the
second byte (so it emits 0 exactly when the value's z is 0, and a value
decoded from a wire with z=1 re-encodes with z=1), while `from_bytes`
accepts any z bit from the wire. -/
theorem z_bit_encoding :
    (∀ f : DnsFlags, flagsWF f →
      (((f.to_bytes.get? 1).getD 0) >>> 6) &&& 1 = f.z) ∧
    (∀ b0 b1 : Nat, DnsFlags.from_bytes [b0, b1] 0 =
      .ok ⟨b0 >>> 7, DnsOpcode.from_u8 ((b0 >>> 3) &&& 15), (b0 >>> 2) &&& 1,
          (b0 >>> 1) &&& 1, b0 &&& 1, b1 >>> 7, (b1 >>> 6) &&& 1, (b1 >>> 5) &&& 1,
          (b1 >>> 4) &&& 1, DnsRcode.from_u8 (b1 &&& 15)⟩) := by
  constructor
  · intro f hWF
    obtain ⟨hqr, haa, htc, hrd, hra, hz, had, hcd, hrc⟩ := hWF
    have hrc15 : f.rcode.to_u8 ≤ 15 := le_trans (DnsRcode.to_u8_le_10 _ hrc) (by norm_num)
    rw [flags_to_bytes_sums ⟨hqr, haa, htc, hrd, hra, hz, had, hcd, hrc⟩]
    simp only [List.get?]
    exact (byte1_extract hra hz had hcd hrc15).2.1
  · intro b0 b1
    exact flags_from_bytes_bytes b0 b1 []

/-- C7 witness: the z=1 flags value evaluated through both conjuncts. -/
theorem z_bit_encoding_witness :
    (((DnsFlags.to_bytes ⟨0, .Query, 0, 0, 0, 0, 1, 0, 0, .NoError⟩).get? 1).getD 0 >>> 6)
        &&& 1 = 1 ∧
    DnsFlags.from_bytes [0, 64] 0 =
      .ok ⟨0, .Query, 0, 0, 0, 0, 1, 0, 0, .NoError⟩ :=
  ⟨z_bit_encoding.1 ⟨0, .Query, 0, 0, 0, 0, 1, 0, 0, .NoError⟩ (by decide),
   z_bit_encoding.2 0 64⟩

/-- C8: `DnsHeader::from_bytes` reads the id and the four counts relative
to `offset`, but reads the flags at the absolute positions 2..3
(`DnsFlags::from_bytes(data, 2)`), not at `offset + 2`: decoding at offset
2 yields flags from bytes 2..3 (0x81 0x80), which differ from the flags at
offset+2 = 4..5 (0x00 0x00). -/
theorem header_flags_absolute_offset :
    DnsHeader.from_bytes
        [9, 9, 129, 128, 0, 0, 0, 0, 0, 0, 0, 0, 0, 0, 0, 0] 2 =
      .ok ⟨33152, ⟨1, .Query, 0, 0, 1, 1, 0, 0, 0, .NoError⟩, 0, 0, 0, 0⟩ ∧
    DnsFlags.from_bytes [9, 9, 129, 128, 0, 0, 0, 0, 0, 0, 0, 0, 0, 0, 0, 0] 2 =
      .ok ⟨1, .Query, 0, 0, 1, 1, 0, 0, 0, .NoError⟩ ∧
    DnsFlags.from_bytes [9, 9, 129, 128, 0, 0, 0, 0, 0, 0, 0, 0, 0, 0, 0, 0] 4 =
      .ok ⟨0, .Query, 0, 0, 0, 0, 0, 0, 0, .NoError⟩ ∧
    (⟨1, .Query, 0, 0, 1, 1, 0, 0, 0, .NoError⟩ : DnsFlags) ≠
      ⟨0, .Query, 0, 0, 0, 0, 0, 0, 0, .NoError⟩ := by
  decide

/-- C9 counterexample: the claimed universal "re-encoding a value decoded
from an unknown code does not reproduce that code" fails at the fixed
points of the constants — opcode 7 (not a named opcode) decodes to
`Unassigned` and re-encodes to 7, and likewise qtype 0 and class 0
re-encode to themselves. -/
theorem catch_all_fixed_point_counterexample :
    DnsOpcode.from_u8 7 = DnsOpcode.Unassigned ∧
    DnsOpcode.to_u8 (DnsOpcode.from_u8 7) = 7 ∧
    DnsQType.from_u16 0 = DnsQType.Unassigned ∧
    DnsQType.to_u16 (DnsQType.from_u16 0) = 0 ∧
    DnsClass.from_u16 0 = DnsClass.Reserved ∧
    DnsClass.to_u16 (DnsClass.from_u16 0) = 0 := by
  decide

/-- C9 (amended): every catch-all variant re-encodes to a fixed constant
independent of the wire value it was decoded from (`DnsQType` 0,
`DnsClass` 0 for both `Unassigned` and `Reserved`, `DnsOpcode` 7, and
`DnsRcode::to_u8` 0 for every variant without a listed code), so the
catch-all variants do not retain the decoded code; re-encoding a value
decoded from an unknown code therefore reproduces that code exactly when
the code happens to equal the constant itself (qtype 0, class 0,
opcode 7) and for no other unknown code — in particular never for an
unknown rcode, whose constant 0 is a named code. -/
theorem catch_all_codes_amended :
    DnsQType.to_u16 .Unassigned = 0 ∧
    DnsClass.to_u16 .Unassigned = 0 ∧
    DnsClass.to_u16 .Reserved = 0 ∧
    DnsOpcode.to_u8 .Unassigned = 7 ∧
    DnsRcode.to_u8 .BadSignature = 0 ∧
    DnsRcode.to_u8 .BadKey = 0 ∧
    DnsRcode.to_u8 .BadTimestamp = 0 ∧
    DnsRcode.to_u8 .BadMode = 0 ∧
    DnsRcode.to_u8 .BadName = 0 ∧
    DnsRcode.to_u8 .BadAlg = 0 ∧
    DnsRcode.to_u8 .BadTruncation = 0 ∧
    DnsRcode.to_u8 .Unassigned = 0 ∧
    DnsRcode.to_u8 .Reserved = 0 ∧
    (∀ n : Nat, DnsQType.from_u16 n = DnsQType.Unassigned →
      (DnsQType.to_u16 (DnsQType.from_u16 n) = n ↔ n = 0)) ∧
    (∀ n : Nat,
      DnsClass.from_u16 n = DnsClass.Unassigned ∨
        DnsClass.from_u16 n = DnsClass.Reserved →
      (DnsClass.to_u16 (DnsClass.from_u16 n) = n ↔ n = 0)) ∧
    (∀ n : Nat, DnsOpcode.from_u8 n = DnsOpcode.Unassigned →
      (DnsOpcode.to_u8 (DnsOpcode.from_u8 n) = n ↔ n = 7)) ∧
    (∀ n : Nat,
      DnsRcode.from_u16 n = DnsRcode.Unassigned ∨
        DnsRcode.from_u16 n = DnsRcode.Reserved →
      DnsRcode.to_u16 (DnsRcode.from_u16 n) ≠ n) ∧
    (∀ n : Nat, DnsRcode.from_u8 n = DnsRcode.Unassigned →
      DnsRcode.to_u8 (DnsRcode.from_u8 n) ≠ n) := by
  refine ⟨rfl, rfl, rfl, rfl, rfl, rfl, rfl, rfl, rfl, rfl, rfl, rfl, rfl,
    ?_, ?_, ?_, ?_, ?_⟩
  · intro n h
    rw [h]
    exact ⟨fun e => e.symm, fun e => e.symm⟩
  · intro n h
    rcases h with h | h <;> rw [h] <;> exact ⟨fun e => e.symm, fun e => e.symm⟩
  · intro n h
    rw [h]
    exact ⟨fun e => e.symm, fun e => e.symm⟩
  · intro n h
    rcases h with h | h <;> rw [h] <;> intro e <;> subst e <;>
      exact absurd h (by decide)
  · intro n h
    rw [h]
    intro e
    subst e
    exact absurd h (by decide)

/-- C9 witness: the amended characterization evaluated at unknown codes
away from the fixed points (qtype 54, class 5, rcodes 25 and 12), at the
fixed points themselves (qtype 0, opcode 7), and at a non-fixed opcode
(9). -/
theorem catch_all_codes_amended_witness :
    (DnsQType.to_u16 (DnsQType.from_u16 54) = 54 ↔ (54 : Nat) = 0) ∧
    (DnsQType.to_u16 (DnsQType.from_u16 0) = 0 ↔ (0 : Nat) = 0) ∧
    (DnsClass.to_u16 (DnsClass.from_u16 5) = 5 ↔ (5 : Nat) = 0) ∧
    (DnsOpcode.to_u8 (DnsOpcode.from_u8 9) = 9 ↔ (9 : Nat) = 7) ∧
    (DnsOpcode.to_u8 (DnsOpcode.from_u8 7) = 7 ↔ (7 : Nat) = 7) ∧
    DnsRcode.to_u16 (DnsRcode.from_u16 25) ≠ 25 ∧
    DnsRcode.to_u8 (DnsRcode.from_u8 12) ≠ 12 := by
  obtain ⟨_, _, _, _, _, _, _, _, _, _, _, _, _, hq, hc, ho, hr16, hr8⟩ :=
    catch_all_codes_amended
  exact ⟨hq 54 (by decide), hq 0 (by decide), hc 5 (Or.inl (by decide)),
    ho 9 (by decide), ho 7 (by decide), hr16 25 (Or.inl (by decide)),
    hr8 12 (by decide)⟩

/-- C10: only a length byte with both top bits set (0xC0..=0xFF) starts a
compression pointer; any other nonzero length byte — the DNS-reserved
ranges 64..=127 and 128..=191 included — is consumed as a literal label
length, reading that many bytes of label text with no error for lengths
above 63. -/
theorem label_length_literal_ranges :
    (∀ b : Nat, b < 256 → (b &&& 192 = 192 ↔ 192 ≤ b)) ∧
    (∀ (qF : Nat) (data : List Nat) (off b : Nat) (lab rest : List Nat),
      data.drop off = b :: (lab ++ 0 :: rest) →
      lab.length = b → 1 ≤ b → b &&& 192 ≠ 192 →
      validUtf8 lab = true →
      DnsName.from_bytes qF data off = .ok ⟨[lab], off % 65536, 0⟩) := by
  constructor
  · exact and192_iff_ge
  · intro qF data off b lab rest hdrop hlen hb1 hb2 hutf
    unfold DnsName.from_bytes
    rw [parseLoop_label hdrop (by omega) hb2 hlen, hutf]
    simp only [if_pos, List.nil_append]
    have hnext : data.drop (off + 1 + b) = 0 :: rest := by
      have h1 : data.drop (off + 1) = lab ++ 0 :: rest := drop_succ_of_drop hdrop
      have h2 := drop_add_of_drop h1 lab.length
      rw [List.drop_left] at h2
      rw [← h2]
      congr 1
      omega
    have hpos : 1 ≤ data.length := by
      have := length_ge_of_drop hdrop
      omega
    obtain ⟨m, hm⟩ : ∃ m, data.length = m + 1 := ⟨data.length - 1, by omega⟩
    rw [hm, parseLoop_term hnext]

/-- C10 witness: literal labels of length 100 (range 64..=127) and 130
(range 128..=191) decode without error; and within bytes, exactly the
values 192..255 satisfy the pointer test. -/
theorem label_length_literal_ranges_witness :
    ((100 : Nat) &&& 192 = 192 ↔ 192 ≤ 100) ∧
    ((130 : Nat) &&& 192 = 192 ↔ 192 ≤ 130) ∧
    ((200 : Nat) &&& 192 = 192 ↔ 192 ≤ 200) ∧
    DnsName.from_bytes 8 (100 :: (List.replicate 100 97 ++ 0 :: [])) 0 =
      .ok ⟨[List.replicate 100 97], 0, 0⟩ ∧
    DnsName.from_bytes 8 (130 :: (List.replicate 130 97 ++ 0 :: [])) 0 =
      .ok ⟨[List.replicate 130 97], 0, 0⟩ := by
  refine ⟨label_length_literal_ranges.1 100 (by norm_num),
    label_length_literal_ranges.1 130 (by norm_num),
    label_length_literal_ranges.1 200 (by norm_num), ?_, ?_⟩
  · exact label_length_literal_ranges.2 8 _ 0 100 (List.replicate 100 97) []
      (by rfl) (by decide) (by decide) (by decide) (by decide)
  · exact label_length_literal_ranges.2 8 _ 0 130 (List.replicate 130 97) []
      (by rfl) (by decide) (by decide) (by decide) (by decide)
